import Mathlib

/-!
goexiv: the Go binding above the exiv2 codec.

A shallow embedding of `exiv.go` and `xmp.go`.

* Go strings are `String` (UTF-8 text, in which NUL is the byte 0); a Go `[]byte` is
  `Option (List UInt8)` (`none` is the nil slice); a Go `error` is `Option GoError`
  (`none` is the nil error).
* Every function that crosses the cgo boundary threads a `World`: the state of the
  unmanaged side together with the list of foreign calls made so far.
* The exiv2 codec behind `helper.h` is a parameter (`Codec`): the Go code is verified for
  every behaviour of the C functions it calls.
-/

set_option linter.dupNamespace false

namespace Goexiv

/-! ## Values at the Go / C boundary -/

/-- The NUL character, which ends a C string. -/
def NUL : Char := Char.ofNat 0

/-- The value of a `char*`: a text without NUL. -/
structure CStr where
  val : String
  nulFree : NUL ∉ val.data

instance : DecidableEq CStr := fun a b =>
  if h : a.val = b.val then isTrue (by cases a; cases b; simp_all)
  else isFalse (fun e => h (by rw [e]))

/-- Source: `C.CString(s)`: the bytes of `s` are copied to C memory and a NUL is appended, so the
`char*` handed to C denotes the part of `s` before its first NUL. -/
def CString (s : String) : CStr :=
  ⟨⟨s.data.takeWhile (fun ch => decide (ch ≠ NUL))⟩, by
    intro h
    have := List.mem_takeWhile_imp h
    simp at this⟩

/-- Source: `C.GoString(p)`: the Go copy of a C string. -/
def GoString (p : CStr) : String := p.val

/-- A Go `[]byte`; `none` is the nil slice. -/
abbrev ByteSlice := Option (List UInt8)

/-- Go `len` of a byte slice. -/
def len : ByteSlice → Nat
  | none => 0
  | some b => b.length

/-- Source: `C.CBytes(b)`: the bytes copied to C memory. -/
def CBytes : ByteSlice → List UInt8
  | none => []
  | some b => b

/-- Source: `type MetadataFormat int`. -/
abbrev MetadataFormat := Int

/-- Source: `EXIF MetadataFormat = iota`. -/
def EXIF : MetadataFormat := 0
/-- Second constant of the `iota` block. -/
def IPTC : MetadataFormat := 1
/-- Third constant of the `iota` block. -/
def XMP : MetadataFormat := 2

/-! ## Errors -/

/-- Source: `type Error struct { code int; what string }`. -/
structure Error where
  code : Int
  what : String
deriving DecidableEq

/-- Source: `func (e *Error) Code() int`. -/
def Error.Code (e : Error) : Int := e.code

/-- Source: `func (e *Error) Error() string`. -/
def Error.Error (e : Goexiv.Error) : String := e.what

/-- A non-nil Go `error` as this package produces it: a `*Error`, or the value of
`errors.New(text)`. Two `errors.New` values are told apart by their text only. -/
inductive GoError where
  | exiv (e : Error)
  | errorString (text : String)
deriving DecidableEq

/-- The `Error()` method of the `error` interface. -/
def GoError.Error : GoError → String
  | .exiv e => e.Error
  | .errorString text => text

/-- Source: `var ErrMetadataKeyNotFound = errors.New("key not found")`. -/
def ErrMetadataKeyNotFound : GoError := .errorString "key not found"

/-- The C object `Exiv2Error` as `exiv2_error_code` and `exiv2_error_what` read it. -/
structure Exiv2Error where
  code : Int
  what : CStr
deriving DecidableEq

/-! ## Foreign calls -/

/-- One call across the cgo boundary, with the data it is given. -/
inductive Call where
  | CString (s : String)
  | CBytes (b : List UInt8)
  | free_string (p : CStr)
  | free_bytes (p : List UInt8)
  | exiv2_error_code
  | exiv2_error_what
  | exiv2_error_free
  | exiv2_image_factory_open (path : CStr)
  | exiv2_image_factory_open_bytes (p : List UInt8) (n : Int)
  | exiv2_image_free
  | exiv2_image_read_metadata
  | exiv2_image_icc_profile_size
  | exiv2_image_icc_profile
  | exiv2_image_set_exif_string (key value : CStr)
  | exiv2_image_set_iptc_string (key value : CStr)
  | exiv2_image_set_xmp_string (key value : CStr)
  | exiv2_image_set_exif_short (key value : CStr)
  | exiv2_image_set_iptc_short (key value : CStr)
  | exiv2_exif_strip_key (key : CStr)
  | exiv2_iptc_strip_key (key : CStr)
  | exiv2_xmp_strip_key (key : CStr)
  | exiv2_image_get_xmp_data
  | exiv2_xmp_data_find_key (key : CStr)
  | exiv2_xmp_datum_to_string
  | exiv2_xmp_datum_key
  | exiv2_xmp_data_iterator
  | exiv2_xmp_data_iterator_has_next
  | exiv2_xmp_datum_iterator_next
deriving DecidableEq

/-- Whether the call enters the codec (as opposed to the C allocator). -/
def Call.isCodec : Call → Bool
  | .CString _ => false
  | .CBytes _ => false
  | .free_string _ => false
  | .free_bytes _ => false
  | _ => true

/-- Whether the call is one of the codec's five metadata setters. -/
def Call.isSetter : Call → Bool
  | .exiv2_image_set_exif_string _ _ => true
  | .exiv2_image_set_iptc_string _ _ => true
  | .exiv2_image_set_xmp_string _ _ => true
  | .exiv2_image_set_exif_short _ _ => true
  | .exiv2_image_set_iptc_short _ _ => true
  | _ => false

/-- Whether the call is one of the codec's three key removals. -/
def Call.isStrip : Call → Bool
  | .exiv2_exif_strip_key _ => true
  | .exiv2_iptc_strip_key _ => true
  | .exiv2_xmp_strip_key _ => true
  | _ => false

/-- The C functions of `helper.h` that `exiv.go` and `xmp.go` call. `σ` is the state of
the unmanaged side; the other types are what the C pointers point to. An out-parameter
`Exiv2Error **` is returned as an `Option Exiv2Error` (`none`: left NULL). -/
structure Codec where
  σ : Type
  Image : Type
  XmpData : Type
  XmpDatum : Type
  XmpDatumIterator : Type
  image_factory_open : CStr → σ → (Image × Option Exiv2Error) × σ
  image_factory_open_bytes : List UInt8 → Int → σ → (Image × Option Exiv2Error) × σ
  image_free : Image → σ → Unit × σ
  image_read_metadata : Image → σ → Option Exiv2Error × σ
  image_icc_profile_size : Image → σ → Int × σ
  image_icc_profile : Image → σ → List UInt8 × σ
  image_set_exif_string : Image → CStr → CStr → σ → Option Exiv2Error × σ
  image_set_iptc_string : Image → CStr → CStr → σ → Option Exiv2Error × σ
  image_set_xmp_string : Image → CStr → CStr → σ → Option Exiv2Error × σ
  image_set_exif_short : Image → CStr → CStr → σ → Option Exiv2Error × σ
  image_set_iptc_short : Image → CStr → CStr → σ → Option Exiv2Error × σ
  exif_strip_key : Image → CStr → σ → Option Exiv2Error × σ
  iptc_strip_key : Image → CStr → σ → Option Exiv2Error × σ
  xmp_strip_key : Image → CStr → σ → Option Exiv2Error × σ
  image_get_xmp_data : Image → σ → XmpData × σ
  xmp_data_find_key : XmpData → CStr → σ → (Option XmpDatum × Option Exiv2Error) × σ
  xmp_datum_to_string : XmpDatum → σ → CStr × σ
  xmp_datum_key : XmpDatum → σ → CStr × σ
  xmp_data_iterator : XmpData → σ → XmpDatumIterator × σ
  xmp_data_iterator_has_next : XmpDatumIterator → σ → Int × σ
  xmp_datum_iterator_next : XmpDatumIterator → σ → Option XmpDatum × σ

/-- The unmanaged state and the foreign calls made so far, oldest first. -/
structure World (c : Codec) where
  st : c.σ
  trace : List Call

/-- A call into the C allocator: recorded, the codec state is untouched. -/
def World.emit {c : Codec} (w : World c) (ev : Call) : World c :=
  { w with trace := w.trace ++ [ev] }

/-- A call into the codec: recorded, and the codec function runs on the state. -/
def World.call {c : Codec} {α : Type} (w : World c) (ev : Call) (f : c.σ → α × c.σ) :
    α × World c :=
  ((f w.st).1, { st := (f w.st).2, trace := w.trace ++ [ev] })

/-! ## exiv.go -/

/-- Source: `type Image struct { bytesArrayPtr unsafe.Pointer; img *C.Exiv2Image }`; the pointer to
the private copy of the input is `none` when nil, else the copy it points to. -/
structure Image (c : Codec) where
  bytesArrayPtr : Option (List UInt8)
  img : c.Image

/-- Source: `func makeError(cerr *C.Exiv2Error) *Error`. -/
def makeError {c : Codec} (cerr : Exiv2Error) (w : World c) : Error × World c :=
  let w1 := w.emit .exiv2_error_code
  let w2 := w1.emit .exiv2_error_what
  ({ code := cerr.code, what := GoString cerr.what }, w2)

/-- The finalizer closure that `makeImage` registers with `runtime.SetFinalizer`. -/
def Image.finalizer {c : Codec} (x : Image c) (w : World c) : World c :=
  let w1 := (w.call .exiv2_image_free (c.image_free x.img)).2
  match x.bytesArrayPtr with
  | some p => w1.emit (.free_bytes p)
  | none => w1

/-- Source: `func makeImage(cimg *C.Exiv2Image, bytesPtr unsafe.Pointer) *Image`. -/
def makeImage {c : Codec} (cimg : c.Image) (bytesPtr : Option (List UInt8)) : Image c :=
  { bytesArrayPtr := bytesPtr, img := cimg }

/-- Source: `func Open(path string) (*Image, error)`. -/
def Open (c : Codec) (path : String) (w : World c) :
    (Option (Image c) × Option GoError) × World c :=
  let cpath := CString path
  let w1 := w.emit (.CString path)
  let r := w1.call (.exiv2_image_factory_open cpath) (c.image_factory_open cpath)
  match r.1.2 with
  | some cerr =>
    let e := makeError cerr r.2
    let w2 := e.2.emit .exiv2_error_free
    ((none, some (.exiv e.1)), w2.emit (.free_string cpath))
  | none =>
    ((some (makeImage r.1.1 none), none), r.2.emit (.free_string cpath))

/-- Source: `func OpenBytes(input []byte) (*Image, error)`. -/
def OpenBytes (c : Codec) (input : ByteSlice) (w : World c) :
    (Option (Image c) × Option GoError) × World c :=
  if len input = 0 then
    ((none, some (.exiv { code := 0, what := "input is empty" })), w)
  else
    let bytesArrayPtr := CBytes input
    let w1 := w.emit (.CBytes bytesArrayPtr)
    let r := w1.call (.exiv2_image_factory_open_bytes bytesArrayPtr (len input))
      (c.image_factory_open_bytes bytesArrayPtr (len input))
    match r.1.2 with
    | some cerr =>
      let e := makeError cerr r.2
      ((none, some (.exiv e.1)), e.2.emit .exiv2_error_free)
    | none =>
      ((some (makeImage r.1.1 (some bytesArrayPtr)), none), r.2)

/-- Source: `func (i *Image) ReadMetadata() error`. -/
def Image.ReadMetadata {c : Codec} (i : Image c) (w : World c) : Option GoError × World c :=
  let r := w.call .exiv2_image_read_metadata (c.image_read_metadata i.img)
  match r.1 with
  | some cerr =>
    let e := makeError cerr r.2
    (some (.exiv e.1), e.2.emit .exiv2_error_free)
  | none => (none, r.2)

/-- Source: `func (i *Image) SetMetadataString(f MetadataFormat, key, value string) error`. The
deferred closure frees both C strings on every return path. -/
def Image.SetMetadataString {c : Codec} (i : Image c) (f : MetadataFormat)
    (key value : String) (w : World c) : Option GoError × World c :=
  let cKey := CString key
  let w1 := w.emit (.CString key)
  let cValue := CString value
  let w2 := w1.emit (.CString value)
  let deferred := fun (x : World c) => (x.emit (.free_string cKey)).emit (.free_string cValue)
  let sw : Option (Option Exiv2Error × World c) :=
    if f = EXIF then
      some (w2.call (.exiv2_image_set_exif_string cKey cValue)
        (c.image_set_exif_string i.img cKey cValue))
    else if f = IPTC then
      some (w2.call (.exiv2_image_set_iptc_string cKey cValue)
        (c.image_set_iptc_string i.img cKey cValue))
    else if f = XMP then
      some (w2.call (.exiv2_image_set_xmp_string cKey cValue)
        (c.image_set_xmp_string i.img cKey cValue))
    else none
  match sw with
  | none => (some (.errorString "invalid metadata type"), deferred w2)
  | some r =>
    match r.1 with
    | some cerr =>
      let e := makeError cerr r.2
      (some (.exiv e.1), deferred (e.2.emit .exiv2_error_free))
    | none => (none, deferred r.2)

/-- Source: `func (i *Image) SetMetadataShort(f MetadataFormat, key, value string) error`. -/
def Image.SetMetadataShort {c : Codec} (i : Image c) (f : MetadataFormat)
    (key value : String) (w : World c) : Option GoError × World c :=
  let cKey := CString key
  let w1 := w.emit (.CString key)
  let cValue := CString value
  let w2 := w1.emit (.CString value)
  let deferred := fun (x : World c) => (x.emit (.free_string cKey)).emit (.free_string cValue)
  let sw : Option (Option Exiv2Error × World c) :=
    if f = EXIF then
      some (w2.call (.exiv2_image_set_exif_short cKey cValue)
        (c.image_set_exif_short i.img cKey cValue))
    else if f = IPTC then
      some (w2.call (.exiv2_image_set_iptc_short cKey cValue)
        (c.image_set_iptc_short i.img cKey cValue))
    else none
  match sw with
  | none => (some (.errorString "invalid metadata type"), deferred w2)
  | some r =>
    match r.1 with
    | some cerr =>
      let e := makeError cerr r.2
      (some (.exiv e.1), deferred (e.2.emit .exiv2_error_free))
    | none => (none, deferred r.2)

/-- Source: `func (i *Image) StripKey(f MetadataFormat, key string) error`. -/
def Image.StripKey {c : Codec} (i : Image c) (f : MetadataFormat) (key : String)
    (w : World c) : Option GoError × World c :=
  let ckey := CString key
  let w1 := w.emit (.CString key)
  let sw : Option (Option Exiv2Error × World c) :=
    if f = EXIF then
      some (w1.call (.exiv2_exif_strip_key ckey) (c.exif_strip_key i.img ckey))
    else if f = IPTC then
      some (w1.call (.exiv2_iptc_strip_key ckey) (c.iptc_strip_key i.img ckey))
    else if f = XMP then
      some (w1.call (.exiv2_xmp_strip_key ckey) (c.xmp_strip_key i.img ckey))
    else none
  match sw with
  | none => (some (.errorString "invalid metadata format"), w1.emit (.free_string ckey))
  | some r =>
    match r.1 with
    | some cErr =>
      let e := makeError cErr r.2
      (some (.exiv e.1), (e.2.emit .exiv2_error_free).emit (.free_string ckey))
    | none => (none, r.2.emit (.free_string ckey))

/-- Source: `func contains(needle string, haystack []string) bool`. -/
def contains (needle : String) : List String → Bool
  | [] => false
  | s :: rest => if s = needle then true else contains needle rest

/-- Source: the conversion `C.int(x)` of an integer of any C type: the value of `x` in 32
bits, two's complement. -/
def C_int (x : Int) : Int := (x + 2 ^ 31) % 2 ^ 32 - 2 ^ 31

/-- Source: `C.GoBytes(p, n)`: a Go slice that holds a copy of the first `n` bytes at `p`;
`mem` is the memory at `p`. -/
def GoBytes (mem : List UInt8) (n : Int) : ByteSlice := some (mem.take n.toNat)

/-- Source: `func (i *Image) ICCProfile() []byte`. -/
def Image.ICCProfile {c : Codec} (i : Image c) (w : World c) : ByteSlice × World c :=
  let r := w.call .exiv2_image_icc_profile_size (c.image_icc_profile_size i.img)
  let size := C_int r.1
  if size ≤ 0 then (none, r.2)
  else
    let q := r.2.call .exiv2_image_icc_profile (c.image_icc_profile i.img)
    (GoBytes q.1 size, q.2)

/-- Source: a `map[string]string`, as `AllTags()` returns it: its entries in the order in
which a `range` loop visits them; the keys of a map are distinct. -/
structure GoMap where
  entries : List (String × String)
  nodup : (entries.map Prod.fst).Nodup

/-- Source: `type dataFormat interface { AllTags() map[string]string }`, with the map
that the method returns. -/
structure dataFormat where
  AllTags : GoMap

/-- Source: `func getKeysToRemove(m dataFormat, unless []string) (tagsToRemove []string)`. -/
def getKeysToRemove (m : dataFormat) (unlessKeys : List String) : List String :=
  m.AllTags.entries.foldl
    (fun tagsToRemove kv =>
      if !contains kv.1 unlessKeys then tagsToRemove ++ [kv.1] else tagsToRemove) []

/-! ## xmp.go -/

/-- Source: `type XmpData struct { img *Image; data *C.Exiv2XmpData }`. -/
structure XmpData (c : Codec) where
  img : Image c
  data : c.XmpData

/-- Source: `type XmpDatum struct { data *XmpData; datum *C.Exiv2XmpDatum }`. -/
structure XmpDatum (c : Codec) where
  data : XmpData c
  datum : c.XmpDatum

/-- Source: `type XmpDatumIterator struct { data *XmpData; iter *C.Exiv2XmpDatumIterator }`. -/
structure XmpDatumIterator (c : Codec) where
  data : XmpData c
  iter : c.XmpDatumIterator

/-- Source: `func makeXmpData(img *Image, cdata *C.Exiv2XmpData) *XmpData`. -/
def makeXmpData {c : Codec} (img : Image c) (cdata : c.XmpData) : XmpData c :=
  { img := img, data := cdata }

/-- Source: `func makeXmpDatum(data *XmpData, cdatum *C.Exiv2XmpDatum) *XmpDatum`: nil for a NULL
`cdatum`. -/
def makeXmpDatum {c : Codec} (data : XmpData c) (cdatum : Option c.XmpDatum) :
    Option (XmpDatum c) :=
  match cdatum with
  | none => none
  | some p => some { data := data, datum := p }

/-- Source: `func (i *Image) GetXmpData() *XmpData`. -/
def Image.GetXmpData {c : Codec} (i : Image c) (w : World c) : XmpData c × World c :=
  let r := w.call .exiv2_image_get_xmp_data (c.image_get_xmp_data i.img)
  (makeXmpData i r.1, r.2)

/-- Source: `func (d *XmpData) FindKey(key string) (*XmpDatum, error)`. -/
def XmpData.FindKey {c : Codec} (d : XmpData c) (key : String) (w : World c) :
    (Option (XmpDatum c) × Option GoError) × World c :=
  let ckey := CString key
  let w1 := w.emit (.CString key)
  let r := w1.call (.exiv2_xmp_data_find_key ckey) (c.xmp_data_find_key d.data ckey)
  match r.1.2 with
  | some cerr =>
    let e := makeError cerr r.2
    ((none, some (.exiv e.1)), (e.2.emit .exiv2_error_free).emit (.free_string ckey))
  | none =>
    ((makeXmpDatum d r.1.1, none), r.2.emit (.free_string ckey))

/-- Source: `func (d *XmpDatum) Key() string`. -/
def XmpDatum.Key {c : Codec} (d : XmpDatum c) (w : World c) : String × World c :=
  let r := w.call .exiv2_xmp_datum_key (c.xmp_datum_key d.datum)
  (GoString r.1, r.2)

/-- Source: `func (d *XmpDatum) String() string`. -/
def XmpDatum.String {c : Codec} (d : XmpDatum c) (w : World c) : String × World c :=
  let r := w.call .exiv2_xmp_datum_to_string (c.xmp_datum_to_string d.datum)
  (GoString r.1, r.2.emit (.free_string r.1))

/-- Source: `func (i *Image) XmpStripKey(key string) error`. -/
def Image.XmpStripKey {c : Codec} (i : Image c) (key : String) (w : World c) :
    Option GoError × World c :=
  i.StripKey XMP key w

/-- Source: `func (i *Image) SetXmpString(key, value string) error`. -/
def Image.SetXmpString {c : Codec} (i : Image c) (key value : String) (w : World c) :
    Option GoError × World c :=
  i.SetMetadataString XMP key value w

/-- Source: `func (d *XmpData) GetString(key string) (string, error)`. -/
def XmpData.GetString {c : Codec} (d : XmpData c) (key : String) (w : World c) :
    (String × Option GoError) × World c :=
  let r := d.FindKey key w
  match r.1.2 with
  | some err => (("", some err), r.2)
  | none =>
    match r.1.1 with
    | none => (("", some ErrMetadataKeyNotFound), r.2)
    | some datum =>
      let s := datum.String r.2
      ((s.1, none), s.2)

/-- Source: `func makeXmpDatumIterator(data *XmpData, cIter *C.Exiv2XmpDatumIterator)`. -/
def makeXmpDatumIterator {c : Codec} (data : XmpData c) (cIter : c.XmpDatumIterator) :
    XmpDatumIterator c :=
  { data := data, iter := cIter }

/-- Source: `func (d *XmpData) Iterator() *XmpDatumIterator`. -/
def XmpData.Iterator {c : Codec} (d : XmpData c) (w : World c) :
    XmpDatumIterator c × World c :=
  let r := w.call .exiv2_xmp_data_iterator (c.xmp_data_iterator d.data)
  (makeXmpDatumIterator d r.1, r.2)

/-- Source: `func (i *XmpDatumIterator) HasNext() bool`. -/
def XmpDatumIterator.HasNext {c : Codec} (i : XmpDatumIterator c) (w : World c) :
    Bool × World c :=
  let r := w.call .exiv2_xmp_data_iterator_has_next (c.xmp_data_iterator_has_next i.iter)
  (decide (r.1 ≠ 0), r.2)

/-- Source: `func (i *XmpDatumIterator) Next() *XmpDatum`. -/
def XmpDatumIterator.Next {c : Codec} (i : XmpDatumIterator c) (w : World c) :
    Option (XmpDatum c) × World c :=
  let r := w.call .exiv2_xmp_datum_iterator_next (c.xmp_datum_iterator_next i.iter)
  (makeXmpDatum i.data r.1, r.2)

/-- How a call of a Go function ends: it returns a value, it panics (a nil pointer is
dereferenced), or the loop budget of the model is used up. -/
inductive Outcome (α : Type) where
  | returned (a : α)
  | panicked
  | outOfFuel
deriving DecidableEq

/-- The `for iter := xmpData.Iterator(); iter.HasNext(); { ... }` loop of
`XmpStripMetadata`; `fuel` bounds the number of `HasNext` tests. -/
def xmpStripLoop {c : Codec} (i : Image c) (iter : XmpDatumIterator c) (unlessKeys : List String) :
    Nat → World c → Outcome (Option GoError) × World c
  | 0, w => (.outOfFuel, w)
  | fuel + 1, w =>
    let h := iter.HasNext w
    if h.1 then
      let n := iter.Next h.2
      match n.1 with
      | none => (.panicked, n.2)
      | some d =>
        let k := d.Key n.2
        if contains k.1 unlessKeys then xmpStripLoop i iter unlessKeys fuel k.2
        else
          let e := i.StripKey XMP k.1 k.2
          match e.1 with
          | some err => (.returned (some err), e.2)
          | none => xmpStripLoop i iter unlessKeys fuel e.2
    else (.returned none, h.2)

/-- Source: `func (i *Image) XmpStripMetadata(unless []string) error`. -/
def Image.XmpStripMetadata {c : Codec} (i : Image c) (unlessKeys : List String) (fuel : Nat)
    (w : World c) : Outcome (Option GoError) × World c :=
  let xmpData := i.GetXmpData w
  let iter := xmpData.1.Iterator xmpData.2
  xmpStripLoop i iter.1 unlessKeys fuel iter.2

/-- The two methods that `StripMetadata` calls and that `exif.go` and `iptc.go` define:
taken as given, with any behaviour. -/
structure NamespaceStrips (c : Codec) where
  ExifStripMetadata : Image c → List String → World c → Outcome (Option GoError) × World c
  IptcStripMetadata : Image c → List String → World c → Outcome (Option GoError) × World c

/-- Source: `func (i *Image) StripMetadata(unless []string) error`. -/
def Image.StripMetadata {c : Codec} (ns : NamespaceStrips c) (i : Image c)
    (unlessKeys : List String) (fuel : Nat) (w : World c) : Outcome (Option GoError) × World c :=
  let r1 := ns.ExifStripMetadata i unlessKeys w
  match r1.1 with
  | .returned none =>
    let r2 := ns.IptcStripMetadata i unlessKeys r1.2
    match r2.1 with
    | .returned none =>
      let r3 := i.XmpStripMetadata unlessKeys fuel r2.2
      match r3.1 with
      | .returned none => (.returned none, r3.2)
      | other => (other, r3.2)
    | other => (other, r2.2)
  | other => (other, r1.2)

/-! ## The codec as the specification describes it

`helper.cpp` and the exiv2 library are not part of the sources; the specification
describes them as an external collaborator. The definitions of this section model that
description; they are used only where a property depends on what the codec stores. -/

/-- Modelled from the spec: one metadata namespace of the codec (absent: helper.cpp), a
key-indexed collection of entries whose values are opaque strings; writing never adds
a second entry for a key. -/
abbrev Entries := List (CStr × CStr)

/-- Modelled from the spec: key lookup in a namespace (absent: helper.cpp); the first
entry stored under the key, if any. -/
def Entries.find (k : CStr) : Entries → Option (CStr × CStr)
  | [] => none
  | e :: rest => if e.1 = k then some e else Entries.find k rest

/-- Modelled from the spec: writing a value under a key (absent: helper.cpp); an existing
entry is overwritten in place, a new key is added. -/
def Entries.put (k v : CStr) : Entries → Entries
  | [] => [(k, v)]
  | e :: rest => if e.1 = k then (k, v) :: rest else e :: Entries.put k v rest

/-- Modelled from the spec: removal of one key from a namespace (absent: helper.cpp). -/
def Entries.strip (k : CStr) (l : Entries) : Entries :=
  l.filter (fun e => decide (e.1 ≠ k))

/-- Modelled from the spec: the three metadata namespaces of an image (absent:
helper.cpp). -/
structure Tags where
  exif : Entries
  iptc : Entries
  xmp : Entries

/-- Modelled from the spec: the entries of namespace `f` (absent: helper.cpp); a value
outside the three namespaces has none. -/
def Tags.get (t : Tags) (f : MetadataFormat) : Entries :=
  if f = EXIF then t.exif else if f = IPTC then t.iptc else if f = XMP then t.xmp else []

/-- Modelled from the spec: replacing the entries of namespace `f` (absent: helper.cpp);
the two other namespaces are kept. -/
def Tags.set (t : Tags) (f : MetadataFormat) (l : Entries) : Tags :=
  if f = EXIF then { t with exif := l }
  else if f = IPTC then { t with iptc := l }
  else if f = XMP then { t with xmp := l }
  else t

/-- Modelled from the spec: the unmanaged state of an opened image (absent: helper.cpp):
the in-memory metadata model, which `ReadMetadata` fills and the mutation API writes, and
the metadata held by the serialized byte buffer, which every mutation regenerates. -/
structure SpecImage where
  model : Tags
  buffer : Tags

/-- Modelled from the spec: what the specification leaves to the codec (absent:
helper.cpp): which keys are structurally invalid in a namespace and with which error,
whether parsing or opening fails, the embedded colour profile, and how the iterator is
implemented (`enumeratingParams` models it); an iterator reads the current entries and
its own state only. -/
structure SpecParams where
  keyError : MetadataFormat → CStr → Option Exiv2Error
  readError : Option Exiv2Error
  openError : CStr → Option Exiv2Error
  openBytesError : List UInt8 → Option Exiv2Error
  iccProfile : List UInt8
  IterHeap : Type
  Iter : Type
  iterator : Entries → IterHeap → Iter × IterHeap
  has_next : Iter → Entries → IterHeap → Int × IterHeap
  next : Iter → Entries → IterHeap → Option (CStr × CStr) × IterHeap

/-- Modelled from the spec: a namespaced string write (absent: helper.cpp). A structurally
invalid key is an error and changes nothing; otherwise the value is written into the
in-memory model and the serialized buffer is regenerated from it. -/
def specSet (p : SpecParams) (f : MetadataFormat) (k v : CStr) (s : SpecImage) :
    Option Exiv2Error × SpecImage :=
  match p.keyError f k with
  | some e => (some e, s)
  | none =>
    let m := s.model.set f ((s.model.get f).put k v)
    (none, { model := m, buffer := m })

/-- Modelled from the spec: removal of one key from one namespace (absent: helper.cpp). -/
def specStrip (p : SpecParams) (f : MetadataFormat) (k : CStr) (s : SpecImage) :
    Option Exiv2Error × SpecImage :=
  match p.keyError f k with
  | some e => (some e, s)
  | none =>
    let m := s.model.set f ((s.model.get f).strip k)
    (none, { model := m, buffer := m })

/-- Modelled from the spec: `ReadMetadata` of the codec (absent: helper.cpp): the in-memory
model is parsed anew from the serialized buffer. -/
def specRead (p : SpecParams) (s : SpecImage) : Option Exiv2Error × SpecImage :=
  match p.readError with
  | some e => (some e, s)
  | none => (none, { s with model := s.buffer })

/-- Modelled from the spec: key lookup of a container (absent: helper.cpp): an error for a
structurally invalid key, no datum for a valid key that is not present, else a snapshot of
the entry. -/
def specFind (p : SpecParams) (f : MetadataFormat) (k : CStr) (s : SpecImage) :
    Option (CStr × CStr) × Option Exiv2Error :=
  match p.keyError f k with
  | some e => (none, some e)
  | none => ((s.model.get f).find k, none)

/-- Modelled from the spec: the codec behind `helper.h` (absent: helper.cpp), for one
opened image. A container handle is a view without content; a datum is a snapshot of one
entry. The short setters store the text they are given. -/
def specCodec (p : SpecParams) : Codec where
  σ := SpecImage × p.IterHeap
  Image := Unit
  XmpData := Unit
  XmpDatum := CStr × CStr
  XmpDatumIterator := p.Iter
  image_factory_open := fun path st => (((), p.openError path), st)
  image_factory_open_bytes := fun b _ st => (((), p.openBytesError b), st)
  image_free := fun _ st => ((), st)
  image_read_metadata := fun _ st => ((specRead p st.1).1, ((specRead p st.1).2, st.2))
  image_icc_profile_size := fun _ st => (p.iccProfile.length, st)
  image_icc_profile := fun _ st => (p.iccProfile, st)
  image_set_exif_string := fun _ k v st => ((specSet p EXIF k v st.1).1, ((specSet p EXIF k v st.1).2, st.2))
  image_set_iptc_string := fun _ k v st => ((specSet p IPTC k v st.1).1, ((specSet p IPTC k v st.1).2, st.2))
  image_set_xmp_string := fun _ k v st => ((specSet p XMP k v st.1).1, ((specSet p XMP k v st.1).2, st.2))
  image_set_exif_short := fun _ k v st => ((specSet p EXIF k v st.1).1, ((specSet p EXIF k v st.1).2, st.2))
  image_set_iptc_short := fun _ k v st => ((specSet p IPTC k v st.1).1, ((specSet p IPTC k v st.1).2, st.2))
  exif_strip_key := fun _ k st => ((specStrip p EXIF k st.1).1, ((specStrip p EXIF k st.1).2, st.2))
  iptc_strip_key := fun _ k st => ((specStrip p IPTC k st.1).1, ((specStrip p IPTC k st.1).2, st.2))
  xmp_strip_key := fun _ k st => ((specStrip p XMP k st.1).1, ((specStrip p XMP k st.1).2, st.2))
  image_get_xmp_data := fun _ st => ((), st)
  xmp_data_find_key := fun _ k st => (specFind p XMP k st.1, st)
  xmp_datum_to_string := fun d st => (d.2, st)
  xmp_datum_key := fun d st => (d.1, st)
  xmp_data_iterator := fun _ st => ((p.iterator st.1.model.xmp st.2).1, (st.1, (p.iterator st.1.model.xmp st.2).2))
  xmp_data_iterator_has_next := fun it st =>
    ((p.has_next it st.1.model.xmp st.2).1, (st.1, (p.has_next it st.1.model.xmp st.2).2))
  xmp_datum_iterator_next := fun it st =>
    ((p.next it st.1.model.xmp st.2).1, (st.1, (p.next it st.1.model.xmp st.2).2))

/-- Modelled from the spec: `GetString` of the EXIF and of the IPTC container (absent:
exif.go, iptc.go), the shared container contract: resolve the key; an invalid key is the
codec's error, an absent key is `ErrMetadataKeyNotFound`, else the datum's string form. -/
def specGetString (p : SpecParams) (f : MetadataFormat) (key : String) (s : SpecImage) :
    String × Option GoError :=
  match (specFind p f (CString key) s).2 with
  | some e => ("", some (.exiv { code := e.code, what := GoString e.what }))
  | none =>
    match (specFind p f (CString key) s).1 with
    | none => ("", some ErrMetadataKeyNotFound)
    | some d => (GoString d.2, none)

/-- Reading a key back from namespace `f`: through `GetXmpData` and `XmpData.GetString`
of xmp.go for XMP, through the modelled container contract for EXIF and IPTC. -/
def readBack (p : SpecParams) (i : Image (specCodec p)) (f : MetadataFormat) (key : String)
    (w : World (specCodec p)) : String × Option GoError :=
  if f = XMP then ((i.GetXmpData w).1.GetString key (i.GetXmpData w).2).1
  else specGetString p f key w.st.1

/-! ## A concrete codec, for evaluation -/

/-- A codec instance for evaluating the definitions: the key `NotARealKey` is invalid in
every namespace (code 6), one path cannot be opened (code 9), bytes that do not start
with the JPEG marker are not read (code 20), everything else succeeds; iterators enumerate the entries
present when they are created, kept in a table indexed by the iterator handle. -/
def demoParams : SpecParams where
  keyError := fun _ k =>
    if k.val = "NotARealKey" then some { code := 6, what := CString "Invalid key" } else none
  readError := none
  openError := fun path =>
    if path.val = "thisimagedoesnotexist" then
      some { code := 9, what := CString "Failed to open the data source" }
    else none
  openBytesError := fun b =>
    if b.take 2 = [0xFF, 0xD8] then none
    else some { code := 20, what := CString "Failed to read input data" }
  iccProfile := []
  IterHeap := List Entries
  Iter := Nat
  iterator := fun es heap => (heap.length, heap ++ [es])
  has_next := fun it _ heap => (if (heap.getD it []).isEmpty then 0 else 1, heap)
  next := fun it _ heap => ((heap.getD it []).head?, heap.set it (heap.getD it []).tail)

/-- The demo codec. -/
def demoCodec : Codec := specCodec demoParams

/-- An opened image without metadata and no foreign call made yet. -/
def demoWorld : World demoCodec :=
  { st := ({ model := ⟨[], [], []⟩, buffer := ⟨[], [], []⟩ }, []), trace := [] }

/-- A file-backed image handle of the demo codec. -/
def demoImage : Image demoCodec := { bytesArrayPtr := none, img := () }

/-- Namespace strips for evaluating `StripMetadata`: the EXIF one removes the key
`NotARealKey`, the IPTC one the key `Obsolete`, each unless the key is excepted. -/
def demoStrips : NamespaceStrips demoCodec where
  ExifStripMetadata := fun i u w =>
    if contains "NotARealKey" u then (.returned none, w)
    else (.returned (i.StripKey EXIF "NotARealKey" w).1, (i.StripKey EXIF "NotARealKey" w).2)
  IptcStripMetadata := fun i u w =>
    if contains "Obsolete" u then (.returned none, w)
    else (.returned (i.StripKey IPTC "Obsolete" w).1, (i.StripKey IPTC "Obsolete" w).2)

/-- Modelled from the spec: the last step of `ExifStripMetadata` and `IptcStripMetadata`
(absent: exif.go, iptc.go): each remaining key is stripped individually with `StripKey`,
and the first error aborts. -/
def stripEach {c : Codec} (i : Image c) (f : MetadataFormat) :
    List String → World c → Option GoError × World c
  | [], w => (none, w)
  | key :: rest, w =>
    match (i.StripKey f key w).1 with
    | some err => (some err, (i.StripKey f key w).2)
    | none => stripEach i f rest (i.StripKey f key w).2

/-- Modelled from the spec: `ExifStripMetadata` and `IptcStripMetadata` (absent: exif.go,
iptc.go): enumerate all current keys of the namespace, compute keys − exceptKeys, and
strip each remaining key. The foreign calls of the enumeration are not recorded. -/
def specStripNamespace (p : SpecParams) (f : MetadataFormat) (i : Image (specCodec p))
    (unlessKeys : List String) (w : World (specCodec p)) :
    Outcome (Option GoError) × World (specCodec p) :=
  (.returned (stripEach i f (((w.st.1.model.get f).map (fun e => GoString e.1)).filter
      (fun key => !contains key unlessKeys)) w).1,
   (stripEach i f (((w.st.1.model.get f).map (fun e => GoString e.1)).filter
      (fun key => !contains key unlessKeys)) w).2)

/-- The EXIF and IPTC strips on the modelled codec. -/
def specStrips (p : SpecParams) : NamespaceStrips (specCodec p) where
  ExifStripMetadata := specStripNamespace p EXIF
  IptcStripMetadata := specStripNamespace p IPTC

/-- An iterator that is not disturbed by removals: `pending` is what the iterator has
still to yield. A new iterator has the entries of the container pending, in some order;
`has_next` tells whether something is pending; `next` yields the first pending entry and
drops it. None of this depends on the entries the container holds at the time of the
call. -/
structure SnapshotIterator (p : SpecParams) where
  pending : p.Iter → p.IterHeap → Entries
  iterator_pending : ∀ es heap,
    (pending (p.iterator es heap).1 (p.iterator es heap).2).Perm es
  has_next_iff : ∀ it es heap, (p.has_next it es heap).1 ≠ 0 ↔ pending it heap ≠ []
  has_next_pending : ∀ it es heap, pending it (p.has_next it es heap).2 = pending it heap
  next_yields : ∀ it es heap, (p.next it es heap).1 = (pending it heap).head?
  next_pending : ∀ it es heap, pending it (p.next it es heap).2 = (pending it heap).tail

/-- The entries of a namespace whose key is a member of `unlessKeys`. -/
def keptEntries (unlessKeys : List String) (es : Entries) : Entries :=
  es.filter (fun e => contains (GoString e.1) unlessKeys)

/-- The keys, among the pending entries, that the XMP loop hands to `StripKey`. -/
def removedKeys (unlessKeys : List String) (pend : Entries) : List CStr :=
  (pend.filter (fun e => !contains (GoString e.1) unlessKeys)).map (fun e => e.1)

/-- Modelled from the spec: the iterator of a container (absent: helper.cpp). The
specification has `StripMetadata` enumerate all current keys of a namespace through the
iterator, each key exactly once, without omissions or duplicates: an iterator made on a
container enumerates the entries the container holds at that moment; it has more as long
as one of them is left, and advancing past the end yields no datum and changes nothing.
The iterators made so far are kept in a table indexed by the iterator handle. Everything
that is not iteration is taken from `p`. -/
def enumeratingParams (p : SpecParams) : SpecParams where
  keyError := p.keyError
  readError := p.readError
  openError := p.openError
  openBytesError := p.openBytesError
  iccProfile := p.iccProfile
  IterHeap := List Entries
  Iter := Nat
  iterator := fun es heap => (heap.length, heap ++ [es])
  has_next := fun it _ heap => (if (heap.getD it []).isEmpty then 0 else 1, heap)
  next := fun it _ heap => ((heap.getD it []).head?, heap.set it (heap.getD it []).tail)

/-- The modelled iterator is not disturbed by removals: what it has still to yield is the
row of its handle in the table. -/
def enumeratingSnapshot (p : SpecParams) : SnapshotIterator (enumeratingParams p) where
  pending := fun it heap => List.getD heap it []
  iterator_pending := fun (es : Entries) (heap : List Entries) => by
    show (List.getD (heap ++ [es]) heap.length []).Perm es
    simp [List.getD_eq_getElem?_getD]
  has_next_iff := fun (it : Nat) (_ : Entries) (heap : List Entries) => by
    show (if (List.getD heap it []).isEmpty then (0 : Int) else 1) ≠ 0
      ↔ List.getD heap it [] ≠ []
    cases h : List.getD heap it [] <;> simp
  has_next_pending := fun _ _ _ => rfl
  next_yields := fun _ _ _ => rfl
  next_pending := fun (it : Nat) (_ : Entries) (heap : List Entries) => by
    show List.getD (heap.set it (List.getD heap it []).tail) it []
      = (List.getD heap it []).tail
    simp only [List.getD_eq_getElem?_getD]
    by_cases h : it < heap.length
    · simp [List.getElem?_set, h]
    · have h1 : heap.length ≤ it := Nat.le_of_not_lt h
      simp [List.getElem?_eq_none h1, List.getElem?_set, h]

/-- An image of the demo codec with metadata loaded: two entries per namespace. -/
def loadedWorld : World demoCodec :=
  { st := ({ model := ⟨[(CString "Exif.Image.Artist", CString "John Doe"),
                        (CString "Exif.Image.Copyright", CString "©2023 John Doe")],
                       [(CString "Iptc.Application2.Copyright", CString "this is the copy"),
                        (CString "Iptc.Application2.CountryName", CString "Lancre")],
                       [(CString "Xmp.iptc.CreditLine", CString "John Doe"),
                        (CString "Xmp.iptc.JobId", CString "12345")]⟩,
             buffer := ⟨[(CString "Exif.Image.Artist", CString "John Doe"),
                         (CString "Exif.Image.Copyright", CString "©2023 John Doe")],
                        [(CString "Iptc.Application2.Copyright", CString "this is the copy"),
                         (CString "Iptc.Application2.CountryName", CString "Lancre")],
                        [(CString "Xmp.iptc.CreditLine", CString "John Doe"),
                         (CString "Xmp.iptc.JobId", CString "12345")]⟩ }, []),
    trace := [] }

/-- The loaded image of `loadedWorld`, held by the codec with the modelled iterator. -/
def enumWorld : World (specCodec (enumeratingParams demoParams)) :=
  { st := loadedWorld.st, trace := [] }

/-- A file-backed image handle of the codec with the modelled iterator. -/
def enumImage : Image (specCodec (enumeratingParams demoParams)) :=
  { bytesArrayPtr := none, img := () }

/-! ## Notions used in the statements -/

/-- What the codec answers to `exiv2_xmp_data_find_key` when `FindKey` asks it. -/
def findKeyAnswer {c : Codec} (d : XmpData c) (key : String) (w : World c) :
    Option c.XmpDatum × Option Exiv2Error :=
  (c.xmp_data_find_key d.data (CString key) w.st).1

/-- The foreign calls a function made: the trace after it, without the trace before. -/
def callsSince {c : Codec} (before after : World c) : List Call :=
  after.trace.drop before.trace.length

/-- The Go error that carries the code and the message of a codec error unchanged. -/
def passedThrough (cerr : Exiv2Error) : GoError :=
  .exiv { code := cerr.code, what := cerr.what.val }

/-- Whether every `exiv2_xmp_datum_iterator_next` in a list of calls comes directly after
an `exiv2_xmp_data_iterator_has_next`; `prev` is the call made before the list. -/
def nextFollowsHasNext (prev : Option Call) : List Call → Bool
  | [] => true
  | ev :: rest =>
    (!decide (ev = .exiv2_xmp_datum_iterator_next) ||
      decide (prev = some .exiv2_xmp_data_iterator_has_next)) &&
    nextFollowsHasNext (some ev) rest

/-- The codec's iterator yields a datum whenever it has just answered that there is a
next one. -/
def YieldsWhenHasNext (c : Codec) : Prop :=
  ∀ (it : c.XmpDatumIterator) (st : c.σ),
    (c.xmp_data_iterator_has_next it st).1 ≠ 0 →
    (c.xmp_datum_iterator_next it (c.xmp_data_iterator_has_next it st).2).1 ≠ none

/-- The foreign calls of a `StripKey(XMP, key)` on which the codec reports an error. -/
def failedXmpStripCalls (key : String) : List Call :=
  [.CString key, .exiv2_xmp_strip_key (CString key), .exiv2_error_code, .exiv2_error_what,
   .exiv2_error_free, .free_string (CString key)]

/-! ## Properties -/

/-- C1: for every byte slice of length zero, the nil slice included, `OpenBytes` returns no
Image and an `Error` whose `Code()` is 0 and whose message is "input is empty"; the world
is left as it was, so the input is not copied and the codec is not entered. A slice has
length zero exactly when it is nil or empty. -/
theorem OpenBytes_empty_input (c : Codec) (input : ByteSlice) (w : World c)
    (h : len input = 0) :
    (input = none ∨ input = some []) ∧
    ∃ e : Error, OpenBytes c input w = ((none, some (.exiv e)), w) ∧
      e.Code = 0 ∧ e.Error = "input is empty" := by
  refine ⟨?_, { code := 0, what := "input is empty" }, ?_, rfl, rfl⟩
  · cases input with
    | none => exact Or.inl rfl
    | some b =>
      right
      simp only [len, List.length_eq_zero] at h
      rw [h]
  · simp [OpenBytes, h]

/-- Witness of C1 at the nil slice and at the empty slice on the demo codec. -/
theorem OpenBytes_empty_input_witness :
    len (none : ByteSlice) = 0 ∧ len (some [] : ByteSlice) = 0 ∧
    ((none : ByteSlice) = none ∨ (none : ByteSlice) = some []) ∧
    (OpenBytes demoCodec none demoWorld).2.trace = [] ∧
    (OpenBytes demoCodec (some []) demoWorld).2.trace = [] := by
  refine ⟨rfl, rfl, (OpenBytes_empty_input demoCodec none demoWorld rfl).1, ?_, ?_⟩
  · obtain ⟨e, he, -⟩ := (OpenBytes_empty_input demoCodec none demoWorld rfl).2
    rw [he]; rfl
  · obtain ⟨e, he, -⟩ := (OpenBytes_empty_input demoCodec (some []) demoWorld rfl).2
    rw [he]; rfl

/-- C2: `XmpData.FindKey` has exactly three results. When the codec reports an error: no
datum and that error. When it reports no error and yields no datum: no datum and no error
(a valid key that is not present is not an error). When it reports no error and yields a
datum: that datum and no error. A datum and an error are never returned together. -/
theorem FindKey_three_way (c : Codec) (d : XmpData c) (key : String) (w : World c) :
    (∀ cerr, (findKeyAnswer d key w).2 = some cerr →
      (d.FindKey key w).1 = (none, some (.exiv { code := cerr.code, what := cerr.what.val }))) ∧
    ((findKeyAnswer d key w).2 = none → (findKeyAnswer d key w).1 = none →
      (d.FindKey key w).1 = (none, none)) ∧
    (∀ cdatum, (findKeyAnswer d key w).2 = none → (findKeyAnswer d key w).1 = some cdatum →
      (d.FindKey key w).1 = (some { data := d, datum := cdatum }, none)) ∧
    ¬ ((d.FindKey key w).1.1 ≠ none ∧ (d.FindKey key w).1.2 ≠ none) := by
  unfold findKeyAnswer
  refine ⟨?_, ?_, ?_, ?_⟩
  · intro cerr h
    simp [XmpData.FindKey, World.call, World.emit, h, makeError, GoString]
  · intro h1 h2
    simp [XmpData.FindKey, World.call, World.emit, h1, h2, makeXmpDatum]
  · intro cdatum h1 h2
    simp [XmpData.FindKey, World.call, World.emit, h1, h2, makeXmpDatum]
  · rintro ⟨h1, h2⟩
    cases h : (c.xmp_data_find_key d.data (CString key) w.st).1.2 with
    | none => simp [XmpData.FindKey, World.call, World.emit, h] at h2
    | some cerr => simp [XmpData.FindKey, World.call, World.emit, h] at h1

/-- Witness of C2 on the demo codec: the invalid key is an error without datum, a valid
key that is not present is neither. -/
theorem FindKey_three_way_witness :
    ((demoImage.GetXmpData demoWorld).1.FindKey "NotARealKey" demoWorld).1
      = (none, some (.exiv { code := 6, what := "Invalid key" })) ∧
    ((demoImage.GetXmpData demoWorld).1.FindKey "Xmp.dc.title" demoWorld).1 = (none, none) :=
  ⟨(FindKey_three_way demoCodec (demoImage.GetXmpData demoWorld).1 "NotARealKey"
      demoWorld).1 { code := 6, what := CString "Invalid key" } rfl,
   (FindKey_three_way demoCodec (demoImage.GetXmpData demoWorld).1 "Xmp.dc.title"
      demoWorld).2.1 rfl rfl⟩

/-- C3: `XmpData.GetString` is the composition over `FindKey`. An error of `FindKey` is
returned with the empty string; no datum and no error give the empty string and
`ErrMetadataKeyNotFound`, whose text is "key not found" and which is no codec error;
otherwise the result is the string form of the datum and a nil error. -/
theorem GetString_composition (c : Codec) (d : XmpData c) (key : String) (w : World c) :
    (∀ err, (d.FindKey key w).1.2 = some err →
      d.GetString key w = (("", some err), (d.FindKey key w).2)) ∧
    ((d.FindKey key w).1.2 = none → (d.FindKey key w).1.1 = none →
      d.GetString key w = (("", some ErrMetadataKeyNotFound), (d.FindKey key w).2)) ∧
    (∀ datum, (d.FindKey key w).1.2 = none → (d.FindKey key w).1.1 = some datum →
      d.GetString key w
        = (((datum.String (d.FindKey key w).2).1, none), (datum.String (d.FindKey key w).2).2)) ∧
    ErrMetadataKeyNotFound.Error = "key not found" ∧
    (∀ e : Error, ErrMetadataKeyNotFound ≠ GoError.exiv e) := by
  refine ⟨?_, ?_, ?_, rfl, ?_⟩
  · intro err h
    simp [XmpData.GetString, h]
  · intro h1 h2
    simp [XmpData.GetString, h1, h2]
  · intro datum h1 h2
    simp [XmpData.GetString, h1, h2]
  · intro e h
    simp [ErrMetadataKeyNotFound] at h

/-- Witness of C3 on the demo codec: a valid key that is not present gives
`ErrMetadataKeyNotFound`. -/
theorem GetString_composition_witness :
    ((demoImage.GetXmpData demoWorld).1.GetString "Xmp.dc.title" demoWorld).1
      = ("", some ErrMetadataKeyNotFound) := by
  have h := (GetString_composition demoCodec (demoImage.GetXmpData demoWorld).1
    "Xmp.dc.title" demoWorld).2.1 rfl rfl
  rw [h]

/-- C4: for every format other than EXIF and IPTC (XMP and every unrecognized value), every
key and value, `SetMetadataShort` returns the error with text "invalid metadata type",
enters the codec with no call (its only foreign calls allocate and free the two C strings),
and leaves the unmanaged state, hence the metadata of all namespaces, unchanged. -/
theorem SetMetadataShort_invalid_format (c : Codec) (i : Image c) (f : MetadataFormat)
    (key value : String) (w : World c) (hE : f ≠ EXIF) (hI : f ≠ IPTC) :
    (i.SetMetadataShort f key value w).1 = some (.errorString "invalid metadata type") ∧
    (i.SetMetadataShort f key value w).2.st = w.st ∧
    callsSince w (i.SetMetadataShort f key value w).2
      = [.CString key, .CString value, .free_string (CString key),
         .free_string (CString value)] ∧
    (∀ ev ∈ callsSince w (i.SetMetadataShort f key value w).2,
      ev.isCodec = false ∧ ev.isSetter = false) := by
  have hc : callsSince w (i.SetMetadataShort f key value w).2
      = [.CString key, .CString value, .free_string (CString key),
         .free_string (CString value)] := by
    simp [callsSince, Image.SetMetadataShort, hE, hI, World.emit]
  refine ⟨?_, ?_, hc, ?_⟩
  · simp [Image.SetMetadataShort, hE, hI]
  · simp [Image.SetMetadataShort, hE, hI, World.emit]
  · rw [hc]
    intro ev hev
    simp only [List.mem_cons, List.mem_singleton, List.not_mem_nil, or_false] at hev
    rcases hev with h | h | h | h <;> subst h <;> exact ⟨rfl, rfl⟩

/-- Witness of C4 on the demo codec, at XMP and at the unrecognized value 999. -/
theorem SetMetadataShort_invalid_format_witness :
    XMP ≠ EXIF ∧ XMP ≠ IPTC ∧
    (demoImage.SetMetadataShort XMP "Xmp.dc.title" "1" demoWorld).1
      = some (.errorString "invalid metadata type") ∧
    (demoImage.SetMetadataShort 999 "Exif.Photo.ExposureProgram" "test" demoWorld).1
      = some (.errorString "invalid metadata type") :=
  ⟨by decide, by decide,
   (SetMetadataShort_invalid_format demoCodec demoImage XMP "Xmp.dc.title" "1" demoWorld
      (by decide) (by decide)).1,
   (SetMetadataShort_invalid_format demoCodec demoImage 999 "Exif.Photo.ExposureProgram"
      "test" demoWorld (by decide) (by decide)).1⟩

/-- C5: for every format outside EXIF, IPTC and XMP, every key and value,
`SetMetadataString` returns an error whose text is, and so contains, "invalid metadata
type", enters the codec with no call, and leaves the unmanaged state, hence the metadata
of all namespaces, unchanged. -/
theorem SetMetadataString_invalid_format (c : Codec) (i : Image c) (f : MetadataFormat)
    (key value : String) (w : World c) (hE : f ≠ EXIF) (hI : f ≠ IPTC) (hX : f ≠ XMP) :
    (∃ err, (i.SetMetadataString f key value w).1 = some err ∧
      err.Error = "invalid metadata type" ∧
      "invalid metadata type".data <:+: err.Error.data) ∧
    (i.SetMetadataString f key value w).2.st = w.st ∧
    callsSince w (i.SetMetadataString f key value w).2
      = [.CString key, .CString value, .free_string (CString key),
         .free_string (CString value)] ∧
    (∀ ev ∈ callsSince w (i.SetMetadataString f key value w).2,
      ev.isCodec = false ∧ ev.isSetter = false) := by
  have hc : callsSince w (i.SetMetadataString f key value w).2
      = [.CString key, .CString value, .free_string (CString key),
         .free_string (CString value)] := by
    simp [callsSince, Image.SetMetadataString, hE, hI, hX, World.emit]
  refine ⟨⟨.errorString "invalid metadata type", ?_, rfl, List.infix_refl _⟩, ?_, hc, ?_⟩
  · simp [Image.SetMetadataString, hE, hI, hX]
  · simp [Image.SetMetadataString, hE, hI, hX, World.emit]
  · rw [hc]
    intro ev hev
    simp only [List.mem_cons, List.mem_singleton, List.not_mem_nil, or_false] at hev
    rcases hev with h | h | h | h <;> subst h <;> exact ⟨rfl, rfl⟩

/-- Witness of C5 on the demo codec at the unrecognized value 999: nothing was written. -/
theorem SetMetadataString_invalid_format_witness :
    (999 : MetadataFormat) ≠ EXIF ∧ (999 : MetadataFormat) ≠ IPTC ∧
    (999 : MetadataFormat) ≠ XMP ∧
    (demoImage.SetMetadataString 999 "Exif.Photo.UserComment" "Hello, world!"
      demoWorld).2.st = demoWorld.st :=
  ⟨by decide, by decide, by decide,
   (SetMetadataString_invalid_format demoCodec demoImage 999 "Exif.Photo.UserComment"
      "Hello, world!" demoWorld (by decide) (by decide) (by decide)).2.1⟩

/-- C6 as stated fails: for the unrecognized format 999 the error of `StripKey` is not the
error of `SetMetadataString` nor that of `SetMetadataShort`; its text is "invalid metadata
format", theirs is "invalid metadata type". -/
theorem StripKey_error_differs_from_setters :
    (demoImage.StripKey 999 "Exif.Photo.UserComment" demoWorld).1
      = some (.errorString "invalid metadata format") ∧
    (demoImage.SetMetadataString 999 "Exif.Photo.UserComment" "Hello, world!" demoWorld).1
      = some (.errorString "invalid metadata type") ∧
    (demoImage.SetMetadataShort 999 "Exif.Photo.UserComment" "1" demoWorld).1
      = some (.errorString "invalid metadata type") ∧
    (demoImage.StripKey 999 "Exif.Photo.UserComment" demoWorld).1
      ≠ (demoImage.SetMetadataString 999 "Exif.Photo.UserComment" "Hello, world!"
          demoWorld).1 ∧
    (demoImage.StripKey 999 "Exif.Photo.UserComment" demoWorld).1
      ≠ (demoImage.SetMetadataShort 999 "Exif.Photo.UserComment" "1" demoWorld).1 := by
  refine ⟨rfl, rfl, rfl, ?_, ?_⟩ <;> decide

/-- C6 amended: for every format outside EXIF, IPTC and XMP and every key, `StripKey`
fails, enters the codec with no call and leaves the unmanaged state unchanged, so nothing
is stripped; the formats it rejects are those `SetMetadataString` rejects; its error is
a plain error with text "invalid metadata format", while both setters return a plain
error with text "invalid metadata type". -/
theorem StripKey_invalid_format (c : Codec) (i : Image c) (f : MetadataFormat)
    (key value : String) (w : World c) (hE : f ≠ EXIF) (hI : f ≠ IPTC) (hX : f ≠ XMP) :
    (i.StripKey f key w).1 = some (.errorString "invalid metadata format") ∧
    (i.StripKey f key w).2.st = w.st ∧
    callsSince w (i.StripKey f key w).2 = [.CString key, .free_string (CString key)] ∧
    (∀ ev ∈ callsSince w (i.StripKey f key w).2, ev.isCodec = false ∧ ev.isStrip = false) ∧
    (i.SetMetadataString f key value w).1 = some (.errorString "invalid metadata type") ∧
    (i.SetMetadataShort f key value w).1 = some (.errorString "invalid metadata type") := by
  have hc : callsSince w (i.StripKey f key w).2
      = [.CString key, .free_string (CString key)] := by
    simp [callsSince, Image.StripKey, hE, hI, hX, World.emit]
  refine ⟨?_, ?_, hc, ?_, ?_, ?_⟩
  · simp [Image.StripKey, hE, hI, hX]
  · simp [Image.StripKey, hE, hI, hX, World.emit]
  · rw [hc]
    intro ev hev
    simp only [List.mem_cons, List.mem_singleton, List.not_mem_nil, or_false] at hev
    rcases hev with h | h <;> subst h <;> exact ⟨rfl, rfl⟩
  · simp [Image.SetMetadataString, hE, hI, hX]
  · simp [Image.SetMetadataShort, hE, hI]

/-- Witness of the amended C6 on the demo codec at the unrecognized value 999. -/
theorem StripKey_invalid_format_witness :
    (999 : MetadataFormat) ≠ EXIF ∧ (999 : MetadataFormat) ≠ IPTC ∧
    (999 : MetadataFormat) ≠ XMP ∧
    (demoImage.StripKey 999 "Exif.Photo.UserComment" demoWorld).2.st = demoWorld.st :=
  ⟨by decide, by decide, by decide,
   (StripKey_invalid_format demoCodec demoImage 999 "Exif.Photo.UserComment" "x"
      demoWorld (by decide) (by decide) (by decide)).2.1⟩

/-- Returning `nil` when the last strip returned `nil` and its outcome otherwise is
returning its outcome. -/
theorem outcome_match_id {c : Codec} (r : Outcome (Option GoError) × World c) :
    (match r.1 with
      | .returned none => ((.returned none : Outcome (Option GoError)), r.2)
      | other => (other, r.2)) = r := by
  obtain ⟨o, w⟩ := r
  rcases o with (_ | e) | _ | _ <;> rfl

/-- C7: `StripMetadata` runs the EXIF strip, then the IPTC strip on the world the EXIF
strip left, then the XMP strip on the world the IPTC strip left. An error of the EXIF
strip is returned at once, with the world as the EXIF strip left it and no further foreign
call: IPTC and XMP are not started. An error of the IPTC strip is returned likewise, XMP
is not started. When both returned nil the result is that of the XMP strip. The result is
nil exactly when all three strips returned nil. The world returned is always the one the
last strip that ran left: nothing is rolled back. -/
theorem StripMetadata_fail_fast (c : Codec) (ns : NamespaceStrips c) (i : Image c)
    (unlessKeys : List String) (fuel : Nat) (w : World c) :
    (∀ err, (ns.ExifStripMetadata i unlessKeys w).1 = .returned (some err) →
      Image.StripMetadata ns i unlessKeys fuel w
        = (.returned (some err), (ns.ExifStripMetadata i unlessKeys w).2) ∧
      callsSince (ns.ExifStripMetadata i unlessKeys w).2
        (Image.StripMetadata ns i unlessKeys fuel w).2 = []) ∧
    ((ns.ExifStripMetadata i unlessKeys w).1 = .returned none →
      ∀ err, (ns.IptcStripMetadata i unlessKeys (ns.ExifStripMetadata i unlessKeys w).2).1
          = .returned (some err) →
        Image.StripMetadata ns i unlessKeys fuel w
          = (.returned (some err),
             (ns.IptcStripMetadata i unlessKeys (ns.ExifStripMetadata i unlessKeys w).2).2) ∧
        callsSince (ns.IptcStripMetadata i unlessKeys (ns.ExifStripMetadata i unlessKeys w).2).2
          (Image.StripMetadata ns i unlessKeys fuel w).2 = []) ∧
    ((ns.ExifStripMetadata i unlessKeys w).1 = .returned none →
      (ns.IptcStripMetadata i unlessKeys (ns.ExifStripMetadata i unlessKeys w).2).1
          = .returned none →
        Image.StripMetadata ns i unlessKeys fuel w
          = i.XmpStripMetadata unlessKeys fuel
              (ns.IptcStripMetadata i unlessKeys (ns.ExifStripMetadata i unlessKeys w).2).2) ∧
    ((Image.StripMetadata ns i unlessKeys fuel w).1 = .returned none ↔
      (ns.ExifStripMetadata i unlessKeys w).1 = .returned none ∧
      (ns.IptcStripMetadata i unlessKeys (ns.ExifStripMetadata i unlessKeys w).2).1
        = .returned none ∧
      (i.XmpStripMetadata unlessKeys fuel
        (ns.IptcStripMetadata i unlessKeys (ns.ExifStripMetadata i unlessKeys w).2).2).1
        = .returned none) := by
  refine ⟨?_, ?_, ?_, ?_⟩
  · intro err h
    simp [Image.StripMetadata, h, callsSince]
  · intro h1 err h2
    simp [Image.StripMetadata, h1, h2, callsSince]
  · intro h1 h2
    simp only [Image.StripMetadata, h1, h2]
    exact outcome_match_id _
  · rcases h1 : (ns.ExifStripMetadata i unlessKeys w).1 with (_ | e1) | _ | _
    · rcases h2 : (ns.IptcStripMetadata i unlessKeys
          (ns.ExifStripMetadata i unlessKeys w).2).1 with (_ | e2) | _ | _
      · rcases h3 : (i.XmpStripMetadata unlessKeys fuel (ns.IptcStripMetadata i unlessKeys
            (ns.ExifStripMetadata i unlessKeys w).2).2).1 with (_ | e3) | _ | _
        all_goals simp [Image.StripMetadata, h1, h2, h3]
      all_goals simp [Image.StripMetadata, h1, h2]
    all_goals simp [Image.StripMetadata, h1]

/-- Witness of C7 on the demo codec: with no key excepted the EXIF strip fails with the
codec's error and that error is what `StripMetadata` returns. -/
theorem StripMetadata_fail_fast_witness :
    (Image.StripMetadata demoStrips demoImage [] 5 demoWorld).1
      = .returned (some (.exiv { code := 6, what := "Invalid key" })) :=
  congrArg Prod.fst ((StripMetadata_fail_fast demoCodec demoStrips demoImage [] 5
    demoWorld).1 (.exiv { code := 6, what := "Invalid key" }) rfl).1

/-- C10: whenever the codec reports an error `cerr`, the failing operation returns an
`Error` with `Code()` the code of `cerr` and `Error()` its message, both unchanged: `Open`,
`OpenBytes` on a non-empty input, `ReadMetadata`, `SetMetadataString` and `StripKey` in
each of the three namespaces, `SetMetadataShort` in EXIF and IPTC, and `FindKey`. Codec
errors with different messages give Go errors with different messages, and likewise for
codes. -/
theorem codec_error_passed_through (c : Codec) (cerr : Exiv2Error) (i : Image c)
    (d : XmpData c) (w : World c) :
    (∃ e : Error, passedThrough cerr = .exiv e ∧ e.Code = cerr.code ∧
      e.Error = cerr.what.val) ∧
    (∀ other : Exiv2Error, (cerr.what ≠ other.what →
        (passedThrough cerr).Error ≠ (passedThrough other).Error) ∧
      (cerr.code ≠ other.code → passedThrough cerr ≠ passedThrough other)) ∧
    (∀ path, (c.image_factory_open (CString path) w.st).1.2 = some cerr →
      (Open c path w).1 = (none, some (passedThrough cerr))) ∧
    (∀ input, len input ≠ 0 →
      (c.image_factory_open_bytes (CBytes input) (len input) w.st).1.2 = some cerr →
      (OpenBytes c input w).1 = (none, some (passedThrough cerr))) ∧
    ((c.image_read_metadata i.img w.st).1 = some cerr →
      (i.ReadMetadata w).1 = some (passedThrough cerr)) ∧
    (∀ key value,
      ((c.image_set_exif_string i.img (CString key) (CString value) w.st).1 = some cerr →
        (i.SetMetadataString EXIF key value w).1 = some (passedThrough cerr)) ∧
      ((c.image_set_iptc_string i.img (CString key) (CString value) w.st).1 = some cerr →
        (i.SetMetadataString IPTC key value w).1 = some (passedThrough cerr)) ∧
      ((c.image_set_xmp_string i.img (CString key) (CString value) w.st).1 = some cerr →
        (i.SetMetadataString XMP key value w).1 = some (passedThrough cerr)) ∧
      ((c.image_set_exif_short i.img (CString key) (CString value) w.st).1 = some cerr →
        (i.SetMetadataShort EXIF key value w).1 = some (passedThrough cerr)) ∧
      ((c.image_set_iptc_short i.img (CString key) (CString value) w.st).1 = some cerr →
        (i.SetMetadataShort IPTC key value w).1 = some (passedThrough cerr))) ∧
    (∀ key,
      ((c.exif_strip_key i.img (CString key) w.st).1 = some cerr →
        (i.StripKey EXIF key w).1 = some (passedThrough cerr)) ∧
      ((c.iptc_strip_key i.img (CString key) w.st).1 = some cerr →
        (i.StripKey IPTC key w).1 = some (passedThrough cerr)) ∧
      ((c.xmp_strip_key i.img (CString key) w.st).1 = some cerr →
        (i.StripKey XMP key w).1 = some (passedThrough cerr)) ∧
      ((c.xmp_data_find_key d.data (CString key) w.st).1.2 = some cerr →
        (d.FindKey key w).1 = (none, some (passedThrough cerr)))) := by
  have hIE : IPTC ≠ EXIF := by decide
  have hXE : XMP ≠ EXIF := by decide
  have hXI : XMP ≠ IPTC := by decide
  refine ⟨⟨_, rfl, rfl, rfl⟩, ?_, ?_, ?_, ?_, ?_, ?_⟩
  · intro other
    constructor
    · intro hne heq
      apply hne
      cases hc : cerr.what
      cases ho : other.what
      simp_all [passedThrough, GoError.Error, Error.Error]
    · intro hne heq
      apply hne
      simp [passedThrough] at heq
      exact heq.1
  · intro path h
    simp [Open, World.call, World.emit, h, makeError, GoString, passedThrough]
  · intro input hlen h
    simp [OpenBytes, hlen, World.call, World.emit, h, makeError, GoString, passedThrough]
  · intro h
    simp [Image.ReadMetadata, World.call, h, makeError, GoString, passedThrough]
  · intro key value
    refine ⟨?_, ?_, ?_, ?_, ?_⟩ <;> intro h
    · simp [Image.SetMetadataString, World.call, World.emit, h, makeError, GoString,
        passedThrough]
    · simp [Image.SetMetadataString, World.call, World.emit, h, makeError, GoString,
        passedThrough, hIE]
    · simp [Image.SetMetadataString, World.call, World.emit, h, makeError, GoString,
        passedThrough, hXE, hXI]
    · simp [Image.SetMetadataShort, World.call, World.emit, h, makeError, GoString,
        passedThrough]
    · simp [Image.SetMetadataShort, World.call, World.emit, h, makeError, GoString,
        passedThrough, hIE]
  · intro key
    refine ⟨?_, ?_, ?_, ?_⟩ <;> intro h
    · simp [Image.StripKey, World.call, World.emit, h, makeError, GoString, passedThrough]
    · simp [Image.StripKey, World.call, World.emit, h, makeError, GoString, passedThrough,
        hIE]
    · simp [Image.StripKey, World.call, World.emit, h, makeError, GoString, passedThrough,
        hXE, hXI]
    · simp [XmpData.FindKey, World.call, World.emit, h, makeError, GoString, passedThrough]

/-- Witness of C10 on the demo codec: opening a path that does not exist returns the
codec's code 9 with its message, opening the bytes of the text "no image" its code 20. -/
theorem codec_error_passed_through_witness :
    (Open demoCodec "thisimagedoesnotexist" demoWorld).1
      = (none, some (.exiv { code := 9, what := "Failed to open the data source" })) ∧
    (OpenBytes demoCodec (some [110, 111, 32, 105, 109, 97, 103, 101]) demoWorld).1
      = (none, some (.exiv { code := 20, what := "Failed to read input data" })) :=
  ⟨(codec_error_passed_through demoCodec
      { code := 9, what := CString "Failed to open the data source" } demoImage
      (demoImage.GetXmpData demoWorld).1 demoWorld).2.2.1 "thisimagedoesnotexist" rfl,
   (codec_error_passed_through demoCodec
      { code := 20, what := CString "Failed to read input data" } demoImage
      (demoImage.GetXmpData demoWorld).1 demoWorld).2.2.2.1 (some [110, 111, 32, 105, 109, 97, 103, 101])
      (by decide) rfl⟩

/-- A text without NUL is its own C string. -/
theorem CString_val_of_nulFree (s : String) (h : NUL ∉ s.data) : (CString s).val = s := by
  have : s.data.takeWhile (fun ch => decide (ch ≠ NUL)) = s.data := by
    rw [List.takeWhile_eq_self_iff]
    intro ch hch
    simp only [decide_eq_true_eq]
    intro heq
    exact h (heq ▸ hch)
  show (⟨s.data.takeWhile (fun ch => decide (ch ≠ NUL))⟩ : String) = s
  rw [this]

/-- The Go copy of a C string denotes that C string again. -/
theorem CString_GoString (k : CStr) : CString (GoString k) = k := by
  have h := CString_val_of_nulFree k.val k.nulFree
  cases k
  cases hc : CString (GoString _)
  simp_all [GoString]

/-- A key that was just written is found, with the value written. -/
theorem Entries.find_put (k v : CStr) (l : Entries) :
    Entries.find k (Entries.put k v l) = some (k, v) := by
  induction l with
  | nil => simp [Entries.put, Entries.find]
  | cons e rest ih =>
    by_cases h : e.1 = k
    · simp [Entries.put, Entries.find, h]
    · simp [Entries.put, Entries.find, h, ih]

/-- Reading a namespace that was just replaced gives the replacement. -/
theorem Tags.get_set (t : Tags) (f : MetadataFormat) (l : Entries)
    (hf : f = EXIF ∨ f = IPTC ∨ f = XMP) : (t.set f l).get f = l := by
  rcases hf with rfl | rfl | rfl <;> simp [Tags.set, Tags.get, EXIF, IPTC, XMP]

/-- The XMP entries are the entries of namespace `XMP`. -/
theorem Tags.get_XMP (t : Tags) : t.get XMP = t.xmp := rfl

/-- What `FindKey` returns, in terms of the codec's answer. -/
theorem FindKey_result (c : Codec) (d : XmpData c) (key : String) (w : World c) :
    (d.FindKey key w).1
      = match (c.xmp_data_find_key d.data (CString key) w.st).1.2 with
        | some cerr => (none, some (.exiv { code := cerr.code, what := cerr.what.val }))
        | none => (makeXmpDatum d (c.xmp_data_find_key d.data (CString key) w.st).1.1, none) := by
  cases h : (c.xmp_data_find_key d.data (CString key) w.st).1.2 <;>
    simp [XmpData.FindKey, World.call, World.emit, h, makeError, GoString]

/-- The unmanaged state after `FindKey` is the one the codec's lookup left. -/
theorem FindKey_st (c : Codec) (d : XmpData c) (key : String) (w : World c) :
    (d.FindKey key w).2.st = (c.xmp_data_find_key d.data (CString key) w.st).2 := by
  cases h : (c.xmp_data_find_key d.data (CString key) w.st).1.2 <;>
    simp [XmpData.FindKey, World.call, World.emit, h, makeError]

/-- What `GetString` returns, in terms of the result of `FindKey`. -/
theorem GetString_result (c : Codec) (d : XmpData c) (key : String) (w : World c) :
    (d.GetString key w).1
      = match (d.FindKey key w).1.2 with
        | some err => ("", some err)
        | none =>
          match (d.FindKey key w).1.1 with
          | none => ("", some ErrMetadataKeyNotFound)
          | some datum =>
            (GoString (c.xmp_datum_to_string datum.datum (d.FindKey key w).2.st).1, none) := by
  cases h2 : (d.FindKey key w).1.2 with
  | some err => simp [XmpData.GetString, h2]
  | none =>
    cases h1 : (d.FindKey key w).1.1 with
    | none => simp [XmpData.GetString, h2, h1]
    | some datum => simp [XmpData.GetString, h2, h1, XmpDatum.String, World.call]

/-- On the modelled codec, reading XMP back through xmp.go is the container contract. -/
theorem readBack_eq_specGetString (p : SpecParams) (i : Image (specCodec p))
    (f : MetadataFormat) (key : String) (w : World (specCodec p)) :
    readBack p i f key w = specGetString p f key w.st.1 := by
  by_cases hX : f = XMP
  · subst hX
    have hans : ∀ (d : XmpData (specCodec p)) (st : (specCodec p).σ),
        (specCodec p).xmp_data_find_key d.data (CString key) st
          = (specFind p XMP (CString key) st.1, st) := fun _ _ => rfl
    have hw : (i.GetXmpData w).2.st = w.st := rfl
    simp only [readBack, if_true, GetString_result, FindKey_result, FindKey_st, hans, hw,
      specGetString]
    cases hk : (specFind p XMP (CString key) w.st.1).2 with
    | some e => rfl
    | none =>
      cases hl : (specFind p XMP (CString key) w.st.1).1 with
      | none => simp [makeXmpDatum]
      | some dd => simp [makeXmpDatum]; rfl
  · simp [readBack, hX]

/-- The unmanaged image after `SetMetadataString` returned nil in a namespace: the value,
as C string, is stored under the key, as C string, in the model and in the buffer. -/
theorem SetMetadataString_spec_state (p : SpecParams) (i : Image (specCodec p))
    (f : MetadataFormat) (key value : String) (w : World (specCodec p))
    (hf : f = EXIF ∨ f = IPTC ∨ f = XMP)
    (hset : (i.SetMetadataString f key value w).1 = none) :
    p.keyError f (CString key) = none ∧
    (i.SetMetadataString f key value w).2.st.1
      = { model := w.st.1.model.set f ((w.st.1.model.get f).put (CString key) (CString value)),
          buffer := w.st.1.model.set f ((w.st.1.model.get f).put (CString key) (CString value)) } := by
  have hIE : IPTC ≠ EXIF := by decide
  have hXE : XMP ≠ EXIF := by decide
  have hXI : XMP ≠ IPTC := by decide
  rcases hf with rfl | rfl | rfl
  · cases hk : p.keyError EXIF (CString key) with
    | some e =>
      simp [Image.SetMetadataString, World.call, World.emit, specCodec, specSet, hk,
        makeError] at hset
    | none =>
      simp [Image.SetMetadataString, World.call, World.emit, specCodec, specSet, hk]
  · cases hk : p.keyError IPTC (CString key) with
    | some e =>
      simp [Image.SetMetadataString, World.call, World.emit, specCodec, specSet, hk,
        makeError, hIE] at hset
    | none =>
      simp [Image.SetMetadataString, World.call, World.emit, specCodec, specSet, hk, hIE]
  · cases hk : p.keyError XMP (CString key) with
    | some e =>
      simp [Image.SetMetadataString, World.call, World.emit, specCodec, specSet, hk,
        makeError, hXE, hXI] at hset
    | none =>
      simp [Image.SetMetadataString, World.call, World.emit, specCodec, specSet, hk, hXE,
        hXI]

/-- Source: `ReadMetadata` on the modelled codec keeps the model when it equals the buffer. -/
theorem ReadMetadata_spec_model (p : SpecParams) (i : Image (specCodec p))
    (w : World (specCodec p)) (h : w.st.1.model = w.st.1.buffer) :
    (i.ReadMetadata w).2.st.1.model = w.st.1.model := by
  cases hr : p.readError with
  | some e => simp [Image.ReadMetadata, World.call, World.emit, specCodec, specRead, hr, makeError]
  | none => simp [Image.ReadMetadata, World.call, specCodec, specRead, hr, h]

/-- C9 as stated fails: a Go string may hold a NUL byte, and the codec is handed the C
string that ends there. On the demo codec `SetMetadataString(XMP, "Xmp.dc.title", "a\0b")`
returns nil, `ReadMetadata` returns nil, and `GetString` returns "a". No codec can do
better: `GetString` never returns a string that holds a NUL. -/
theorem roundtrip_fails_on_NUL :
    (demoImage.SetMetadataString XMP "Xmp.dc.title" ⟨['a', NUL, 'b']⟩ demoWorld).1 = none ∧
    (demoImage.ReadMetadata
      (demoImage.SetMetadataString XMP "Xmp.dc.title" ⟨['a', NUL, 'b']⟩ demoWorld).2).1 = none ∧
    readBack demoParams demoImage XMP "Xmp.dc.title"
      (demoImage.ReadMetadata
        (demoImage.SetMetadataString XMP "Xmp.dc.title" ⟨['a', NUL, 'b']⟩ demoWorld).2).2
      = ("a", none) ∧
    ("a" : String) ≠ ⟨['a', NUL, 'b']⟩ ∧
    (∀ (c : Codec) (d : XmpData c) (key : String) (w : World c),
      (d.GetString key w).1 ≠ (⟨['a', NUL, 'b']⟩, none)) := by
  refine ⟨rfl, rfl, rfl, by decide, ?_⟩
  intro c d key w h
  rw [GetString_result] at h
  cases h2 : (d.FindKey key w).1.2 with
  | some err => simp [h2] at h
  | none =>
    cases h1 : (d.FindKey key w).1.1 with
    | none => simp [h2, h1] at h
    | some datum =>
      simp only [h2, h1, GoString, Prod.mk.injEq, and_true] at h
      have hn := (c.xmp_datum_to_string datum.datum (d.FindKey key w).2.st).1.nulFree
      rw [h] at hn
      exact hn (by simp)

/-- C9 amended: on the codec as the specification describes it, for every namespace
EXIF, IPTC or XMP, every key and every value without NUL for which
`SetMetadataString` returns nil, `ReadMetadata` followed by `GetString(key)` on the
container of that namespace returns exactly the value and a nil error. -/
theorem set_read_get_roundtrip (p : SpecParams) (i : Image (specCodec p))
    (f : MetadataFormat) (key value : String) (w : World (specCodec p))
    (hf : f = EXIF ∨ f = IPTC ∨ f = XMP) (hv : NUL ∉ value.data)
    (hset : (i.SetMetadataString f key value w).1 = none) :
    readBack p i f key (i.ReadMetadata (i.SetMetadataString f key value w).2).2
      = (value, none) := by
  obtain ⟨hk, hst⟩ := SetMetadataString_spec_state p i f key value w hf hset
  have hm := ReadMetadata_spec_model p i (i.SetMetadataString f key value w).2
    (by rw [hst])
  rw [readBack_eq_specGetString]
  simp only [specGetString, specFind, hk, hm, hst, Tags.get_set _ _ _ hf, Entries.find_put,
    GoString, CString_val_of_nulFree value hv]

/-- Witness of the amended C9 on the demo codec, with the non-ASCII text of the tests
written to the IPTC caption. -/
theorem set_read_get_roundtrip_witness :
    readBack demoParams demoImage IPTC "Iptc.Application2.Caption"
      (demoImage.ReadMetadata (demoImage.SetMetadataString IPTC "Iptc.Application2.Caption"
        "Hello, world! Привет, мир!" demoWorld).2).2
      = ("Hello, world! Привет, мир!", none) :=
  set_read_get_roundtrip demoParams demoImage IPTC "Iptc.Application2.Caption"
    "Hello, world! Привет, мир!" demoWorld (by decide) (by decide) rfl

/-- The unmanaged image after `StripKey` returned nil in a namespace of the modelled
codec: the key, as C string, is gone from that namespace of the model, the buffer is
regenerated, and the iterators are as they were. -/
theorem StripKey_spec_state (p : SpecParams) (i : Image (specCodec p))
    (f : MetadataFormat) (key : String) (w : World (specCodec p))
    (hf : f = EXIF ∨ f = IPTC ∨ f = XMP) (h : (i.StripKey f key w).1 = none) :
    (i.StripKey f key w).2.st
      = ({ model := w.st.1.model.set f ((w.st.1.model.get f).strip (CString key)),
           buffer := w.st.1.model.set f ((w.st.1.model.get f).strip (CString key)) },
         w.st.2) := by
  have hIE : IPTC ≠ EXIF := by decide
  have hXE : XMP ≠ EXIF := by decide
  have hXI : XMP ≠ IPTC := by decide
  rcases hf with rfl | rfl | rfl
  · cases hk : p.keyError EXIF (CString key) with
    | some e =>
      simp [Image.StripKey, World.call, World.emit, specCodec, specStrip, hk, makeError] at h
    | none => simp [Image.StripKey, World.call, World.emit, specCodec, specStrip, hk]
  · cases hk : p.keyError IPTC (CString key) with
    | some e =>
      simp [Image.StripKey, World.call, World.emit, specCodec, specStrip, hk, makeError,
        hIE] at h
    | none => simp [Image.StripKey, World.call, World.emit, specCodec, specStrip, hk, hIE]
  · cases hk : p.keyError XMP (CString key) with
    | some e =>
      simp [Image.StripKey, World.call, World.emit, specCodec, specStrip, hk, makeError,
        hXE, hXI] at h
    | none =>
      simp [Image.StripKey, World.call, World.emit, specCodec, specStrip, hk, hXE, hXI]

/-- Replacing a namespace leaves the entries of every other namespace. -/
theorem Tags.get_set_of_ne (t : Tags) (f g : MetadataFormat) (l : Entries) (h : g ≠ f) :
    (t.set f l).get g = t.get g := by
  unfold Tags.set Tags.get
  by_cases h1 : f = EXIF
  · subst h1; simp [h]
  · by_cases h2 : f = IPTC
    · subst h2
      by_cases h3 : g = EXIF
      · subst h3; simp [h1]
      · simp [h1, h3, h]
    · by_cases h3 : f = XMP
      · subst h3
        by_cases h4 : g = EXIF
        · subst h4; simp [h1, h2]
        · by_cases h5 : g = IPTC
          · subst h5; simp [h1, h2, h4]
          · simp [h1, h2, h4, h5, h]
      · simp [h1, h2, h3]

/-- Stripping keys one after the other keeps the entries whose key is none of them. -/
theorem Entries.filter_strip (k : CStr) (ks : List CStr) (l : Entries) :
    (Entries.strip k l).filter (fun e => decide (e.1 ∉ ks))
      = l.filter (fun e => decide (e.1 ∉ k :: ks)) := by
  unfold Entries.strip
  rw [List.filter_filter]
  apply List.filter_congr
  intro e _
  by_cases h : e.1 = k <;> simp [h]

/-- After `stripEach` returned nil on the modelled codec, namespace `f` of the model
holds the entries whose key was not in the list, the other namespaces and the iterators
are as they were. -/
theorem stripEach_spec (p : SpecParams) (i : Image (specCodec p)) (f : MetadataFormat)
    (hf : f = EXIF ∨ f = IPTC ∨ f = XMP) :
    ∀ (keys : List String) (w : World (specCodec p)), (stripEach i f keys w).1 = none →
      (stripEach i f keys w).2.st.1.model.get f
        = (w.st.1.model.get f).filter (fun e => decide (e.1 ∉ keys.map CString)) ∧
      (∀ g, g ≠ f → (stripEach i f keys w).2.st.1.model.get g = w.st.1.model.get g) ∧
      (stripEach i f keys w).2.st.2 = w.st.2 := by
  intro keys
  induction keys with
  | nil =>
    intro w _
    simp [stripEach]
  | cons key rest ih =>
    intro w h
    cases hk : (i.StripKey f key w).1 with
    | some err => simp [stripEach, hk] at h
    | none =>
      have hst := StripKey_spec_state p i f key w hf hk
      simp only [stripEach, hk] at h ⊢
      obtain ⟨h1, h2, h3⟩ := ih _ h
      refine ⟨?_, ?_, ?_⟩
      · rw [h1, hst]
        simp only [Tags.get_set _ _ _ hf, List.map_cons]
        exact Entries.filter_strip _ _ _
      · intro g hg
        rw [h2 g hg, hst]
        exact Tags.get_set_of_ne _ _ _ _ hg
      · rw [h3, hst]


/-- An excepted entry adds no key to the keys handed to `StripKey`. -/
theorem removedKeys_cons_kept (unlessKeys : List String) (e : CStr × CStr) (rest : Entries)
    (h : contains (GoString e.1) unlessKeys = true) :
    removedKeys unlessKeys (e :: rest) = removedKeys unlessKeys rest := by
  simp [removedKeys, List.filter_cons, h]

/-- An entry that is not excepted adds its key to the keys handed to `StripKey`. -/
theorem removedKeys_cons_removed (unlessKeys : List String) (e : CStr × CStr)
    (rest : Entries) (h : ¬ contains (GoString e.1) unlessKeys = true) :
    removedKeys unlessKeys (e :: rest) = e.1 :: removedKeys unlessKeys rest := by
  simp [removedKeys, List.filter_cons, h]

/-- One round of the loop of `XmpStripMetadata`, spelled out. -/
theorem xmpStripLoop_succ {c : Codec} (i : Image c) (iter : XmpDatumIterator c)
    (unlessKeys : List String) (fuel : Nat) (w : World c) :
    xmpStripLoop i iter unlessKeys (fuel + 1) w
      = if (iter.HasNext w).1 then
          match (iter.Next (iter.HasNext w).2).1 with
          | none => (.panicked, (iter.Next (iter.HasNext w).2).2)
          | some d =>
            if contains (d.Key (iter.Next (iter.HasNext w).2).2).1 unlessKeys then
              xmpStripLoop i iter unlessKeys fuel (d.Key (iter.Next (iter.HasNext w).2).2).2
            else
              match (i.StripKey XMP (d.Key (iter.Next (iter.HasNext w).2).2).1
                  (d.Key (iter.Next (iter.HasNext w).2).2).2).1 with
              | some err => (.returned (some err),
                  (i.StripKey XMP (d.Key (iter.Next (iter.HasNext w).2).2).1
                    (d.Key (iter.Next (iter.HasNext w).2).2).2).2)
              | none => xmpStripLoop i iter unlessKeys fuel
                  (i.StripKey XMP (d.Key (iter.Next (iter.HasNext w).2).2).1
                    (d.Key (iter.Next (iter.HasNext w).2).2).2).2
        else (.returned none, (iter.HasNext w).2) := rfl

/-- What the loop of `XmpStripMetadata` does on the modelled codec with an iterator that
removals do not disturb: when it returns nil, the XMP entries left are those whose key was
not handed to `StripKey`, the other namespaces are as they were; and it returns as soon
as the budget exceeds the number of pending entries. -/
theorem xmpStripLoop_spec (p : SpecParams) (snap : SnapshotIterator p)
    (i : Image (specCodec p)) (iter : XmpDatumIterator (specCodec p))
    (unlessKeys : List String) :
    ∀ (fuel : Nat) (w : World (specCodec p)),
      ((xmpStripLoop i iter unlessKeys fuel w).1 = .returned none →
        (xmpStripLoop i iter unlessKeys fuel w).2.st.1.model.get XMP
          = (w.st.1.model.get XMP).filter
              (fun e => decide (e.1 ∉ removedKeys unlessKeys (snap.pending iter.iter w.st.2))) ∧
        (∀ g, g ≠ XMP →
          (xmpStripLoop i iter unlessKeys fuel w).2.st.1.model.get g = w.st.1.model.get g)) ∧
      ((snap.pending iter.iter w.st.2).length < fuel →
        ∃ r, (xmpStripLoop i iter unlessKeys fuel w).1 = .returned r) := by
  intro fuel
  induction fuel with
  | zero =>
    intro w
    exact ⟨fun h => by simp [xmpStripLoop] at h, fun h => absurd h (Nat.not_lt_zero _)⟩
  | succ n ih =>
    intro w
    have hHst : (iter.HasNext w).2.st
        = (w.st.1, (p.has_next iter.iter w.st.1.model.xmp w.st.2).2) := rfl
    have hH1 : (iter.HasNext w).1
        = decide ((p.has_next iter.iter w.st.1.model.xmp w.st.2).1 ≠ 0) := rfl
    have hpH : snap.pending iter.iter (iter.HasNext w).2.st.2
        = snap.pending iter.iter w.st.2 := by
      rw [hHst]; exact snap.has_next_pending _ _ _
    rw [xmpStripLoop_succ]
    cases hp : snap.pending iter.iter w.st.2 with
    | nil =>
      have hfalse : (iter.HasNext w).1 = false := by
        rw [hH1]
        have := (snap.has_next_iff iter.iter w.st.1.model.xmp w.st.2).not
        simp only [hp, ne_eq, not_true_eq_false, not_false_eq_true, iff_true, not_not] at this
        simp [this]
      simp only [hfalse, Bool.false_eq_true, if_false]
      refine ⟨fun _ => ⟨?_, fun g _ => ?_⟩, fun _ => ⟨none, rfl⟩⟩
      · rw [hHst]
        simp [removedKeys]
      · rw [hHst]
    | cons e rest =>
      have htrue : (iter.HasNext w).1 = true := by
        rw [hH1]
        have := (snap.has_next_iff iter.iter w.st.1.model.xmp w.st.2)
        simp only [hp, ne_eq, reduceCtorEq, not_false_eq_true, iff_true] at this
        simp [this]
      have hN1 : (iter.Next (iter.HasNext w).2).1 = some { data := iter.data, datum := e } := by
        have hy := snap.next_yields iter.iter (iter.HasNext w).2.st.1.model.xmp
          (iter.HasNext w).2.st.2
        rw [hpH, hp] at hy
        show makeXmpDatum iter.data (p.next iter.iter (iter.HasNext w).2.st.1.model.xmp
          (iter.HasNext w).2.st.2).1 = _
        rw [hy]; rfl
      have hNst1 : (iter.Next (iter.HasNext w).2).2.st.1 = w.st.1 := rfl
      have hpN : snap.pending iter.iter (iter.Next (iter.HasNext w).2).2.st.2 = rest := by
        have hy := snap.next_pending iter.iter (iter.HasNext w).2.st.1.model.xmp
          (iter.HasNext w).2.st.2
        rw [hpH, hp] at hy
        exact hy
      simp only [htrue, if_true, hN1]
      have hK1 : ((XmpDatum.mk iter.data e).Key (iter.Next (iter.HasNext w).2).2).1
          = GoString e.1 := rfl
      have hKst : ((XmpDatum.mk iter.data e).Key (iter.Next (iter.HasNext w).2).2).2.st
          = (iter.Next (iter.HasNext w).2).2.st := rfl
      rw [hK1]
      by_cases hc : contains (GoString e.1) unlessKeys = true
      · simp only [hc, if_true]
        obtain ⟨ih1, ih2⟩ := ih ((XmpDatum.mk iter.data e).Key (iter.Next (iter.HasNext w).2).2).2
        rw [hKst, hpN] at ih1 ih2
        refine ⟨fun h => ?_, fun h => ih2 (by simpa using h)⟩
        obtain ⟨a1, a2⟩ := ih1 h
        refine ⟨?_, fun g hg => ?_⟩
        · rw [a1, hNst1, removedKeys_cons_kept _ _ _ hc]
        · rw [a2 g hg, hNst1]
      · simp only [hc, Bool.false_eq_true, if_false]
        cases hs : (i.StripKey XMP (GoString e.1)
            ((XmpDatum.mk iter.data e).Key (iter.Next (iter.HasNext w).2).2).2).1 with
        | some err =>
          exact ⟨fun h => by simp at h, fun _ => ⟨some err, rfl⟩⟩
        | none =>
          have hst := StripKey_spec_state p i XMP (GoString e.1) _ (Or.inr (Or.inr rfl)) hs
          rw [hKst, CString_GoString] at hst
          simp only
          obtain ⟨ih1, ih2⟩ := ih (i.StripKey XMP (GoString e.1)
            ((XmpDatum.mk iter.data e).Key (iter.Next (iter.HasNext w).2).2).2).2
          rw [hst] at ih1 ih2
          simp only [hpN] at ih1 ih2
          refine ⟨fun h => ?_, fun h => ih2 (by simpa using h)⟩
          obtain ⟨a1, a2⟩ := ih1 h
          refine ⟨?_, fun g hg => ?_⟩
          · rw [a1, Tags.get_set _ _ _ (Or.inr (Or.inr rfl)), hNst1, Entries.filter_strip,
              removedKeys_cons_removed _ _ _ hc]
          · rw [a2 g hg, Tags.get_set_of_ne _ _ _ _ hg, hNst1]


/-- The loop of `contains` finds the needle exactly when it is an element. -/
theorem contains_eq_true_iff (needle : String) (haystack : List String) :
    contains needle haystack = true ↔ needle ∈ haystack := by
  induction haystack with
  | nil => simp [contains]
  | cons s rest ih =>
    by_cases h : s = needle
    · simp [contains, h]
    · have h2 : ¬ needle = s := fun e => h e.symm
      simp [contains, h, h2, ih]

/-- Among the entries that were enumerated, those whose key was not handed to `StripKey`
are those whose key is excepted. -/
theorem kept_iff_not_removed (unlessKeys : List String) (pend : Entries) (e : CStr × CStr)
    (he : e ∈ pend) :
    decide (e.1 ∉ removedKeys unlessKeys pend) = contains (GoString e.1) unlessKeys := by
  by_cases hc : contains (GoString e.1) unlessKeys = true
  · rw [hc, decide_eq_true_eq]
    intro hmem
    simp only [removedKeys, List.mem_map, List.mem_filter] at hmem
    obtain ⟨e2, ⟨_, h2⟩, h3⟩ := hmem
    rw [h3, hc] at h2
    simp at h2
  · have hf : contains (GoString e.1) unlessKeys = false := by simpa using hc
    rw [hf, decide_eq_false_iff_not, not_not]
    simp only [removedKeys, List.mem_map, List.mem_filter]
    exact ⟨e, ⟨he, by simp [hf]⟩, rfl⟩

/-- After the modelled strip of a namespace returned nil, the namespace holds the
entries whose key is excepted, the other namespaces and the iterators are as they were. -/
theorem specStripNamespace_spec (p : SpecParams) (f : MetadataFormat)
    (hf : f = EXIF ∨ f = IPTC ∨ f = XMP) (i : Image (specCodec p))
    (unlessKeys : List String) (w : World (specCodec p))
    (h : (specStripNamespace p f i unlessKeys w).1 = .returned none) :
    (specStripNamespace p f i unlessKeys w).2.st.1.model.get f
      = keptEntries unlessKeys (w.st.1.model.get f) ∧
    (∀ g, g ≠ f →
      (specStripNamespace p f i unlessKeys w).2.st.1.model.get g = w.st.1.model.get g) ∧
    (specStripNamespace p f i unlessKeys w).2.st.2 = w.st.2 := by
  have h0 : (stripEach i f (((w.st.1.model.get f).map (fun e => GoString e.1)).filter
      (fun key => !contains key unlessKeys)) w).1 = none := by
    simpa [specStripNamespace] using h
  obtain ⟨h1, h2, h3⟩ := stripEach_spec p i f hf _ w h0
  refine ⟨?_, h2, h3⟩
  show (stripEach i f _ w).2.st.1.model.get f = _
  rw [h1]
  unfold keptEntries
  apply List.filter_congr
  intro e he
  rw [← kept_iff_not_removed unlessKeys (w.st.1.model.get f) e he]
  congr 1
  simp only [removedKeys, List.mem_map, List.mem_filter, eq_iff_iff]
  constructor
  · intro hn hx
    apply hn
    obtain ⟨e2, ⟨hm, hc⟩, heq⟩ := hx
    exact ⟨GoString e2.1, ⟨⟨e2, hm, rfl⟩, hc⟩, by rw [CString_GoString]; exact heq⟩
  · intro hn hx
    apply hn
    obtain ⟨key, ⟨⟨e2, hm, hk⟩, hc⟩, heq⟩ := hx
    refine ⟨e2, ⟨hm, ?_⟩, ?_⟩
    · rw [hk]; exact hc
    · rw [← heq, ← hk, CString_GoString]

/-- After `XmpStripMetadata` returned nil on the modelled codec with an iterator that
removals do not disturb, the XMP namespace holds the entries whose key is excepted and
the other namespaces are as they were; it returns once the budget exceeds the number of
XMP entries. -/
theorem XmpStripMetadata_spec (p : SpecParams) (snap : SnapshotIterator p)
    (i : Image (specCodec p)) (unlessKeys : List String) (fuel : Nat)
    (w : World (specCodec p)) :
    ((i.XmpStripMetadata unlessKeys fuel w).1 = .returned none →
      (i.XmpStripMetadata unlessKeys fuel w).2.st.1.model.get XMP
        = keptEntries unlessKeys (w.st.1.model.get XMP) ∧
      (∀ g, g ≠ XMP →
        (i.XmpStripMetadata unlessKeys fuel w).2.st.1.model.get g = w.st.1.model.get g)) ∧
    ((w.st.1.model.get XMP).length < fuel →
      ∃ r, (i.XmpStripMetadata unlessKeys fuel w).1 = .returned r) := by
  have hst : ((i.GetXmpData w).1.Iterator (i.GetXmpData w).2).2.st
      = (w.st.1, (p.iterator w.st.1.model.xmp w.st.2).2) := rfl
  have hit : ((i.GetXmpData w).1.Iterator (i.GetXmpData w).2).1.iter
      = (p.iterator w.st.1.model.xmp w.st.2).1 := rfl
  have hperm := snap.iterator_pending w.st.1.model.xmp w.st.2
  obtain ⟨l1, l2⟩ := xmpStripLoop_spec p snap i
    ((i.GetXmpData w).1.Iterator (i.GetXmpData w).2).1 unlessKeys fuel
    ((i.GetXmpData w).1.Iterator (i.GetXmpData w).2).2
  rw [hst, hit] at l1 l2
  constructor
  · intro h
    obtain ⟨a1, a2⟩ := l1 h
    refine ⟨?_, a2⟩
    show (xmpStripLoop i _ unlessKeys fuel _).2.st.1.model.get XMP = _
    rw [a1]
    unfold keptEntries
    apply List.filter_congr
    intro e he
    exact kept_iff_not_removed unlessKeys _ e (hperm.mem_iff.mpr he)
  · intro h
    apply l2
    rw [hperm.length_eq]
    exact h


/-- C8: on the codec as the specification describes it, for every image and every list
`exceptKeys`, when `StripMetadata(exceptKeys)` returns nil each of the three namespaces
holds exactly the entries it held before the call whose key is a member of `exceptKeys`,
key and value unchanged, and every other key is removed; membership is evaluated per
namespace, and for XMP this is the result of the iterator loop of `XmpStripMetadata`.
`StripMetadata` returns as soon as the loop budget exceeds the number of XMP entries. -/
theorem StripMetadata_keeps_excepted (p : SpecParams)
    (i : Image (specCodec (enumeratingParams p))) (unlessKeys : List String) (fuel : Nat)
    (w : World (specCodec (enumeratingParams p))) :
    ((Image.StripMetadata (specStrips (enumeratingParams p)) i unlessKeys fuel w).1 = .returned none →
      ∀ f, f = EXIF ∨ f = IPTC ∨ f = XMP →
        (Image.StripMetadata (specStrips (enumeratingParams p)) i unlessKeys fuel w).2.st.1.model.get f
          = keptEntries unlessKeys (w.st.1.model.get f) ∧
        ∀ e, e ∈ (Image.StripMetadata (specStrips (enumeratingParams p)) i unlessKeys fuel w).2.st.1.model.get f
          ↔ e ∈ w.st.1.model.get f ∧ GoString e.1 ∈ unlessKeys) ∧
    ((w.st.1.model.get XMP).length < fuel →
      ∃ r, (Image.StripMetadata (specStrips (enumeratingParams p)) i unlessKeys fuel w).1 = .returned r) := by
  have hIE : IPTC ≠ EXIF := by decide
  have hXE : XMP ≠ EXIF := by decide
  have hXI : XMP ≠ IPTC := by decide
  have e1 : (specStrips (enumeratingParams p)).ExifStripMetadata = specStripNamespace (enumeratingParams p) EXIF := rfl
  have e2 : (specStrips (enumeratingParams p)).IptcStripMetadata = specStripNamespace (enumeratingParams p) IPTC := rfl
  have hmem : ∀ (es : Entries) (e : CStr × CStr),
      e ∈ keptEntries unlessKeys es ↔ e ∈ es ∧ GoString e.1 ∈ unlessKeys := by
    intro es e
    simp [keptEntries, List.mem_filter, contains_eq_true_iff]
  rcases h1 : (specStripNamespace (enumeratingParams p) EXIF i unlessKeys w).1 with (_ | err1) | _ | _
  · obtain ⟨x1, x2, x3⟩ := specStripNamespace_spec (enumeratingParams p) EXIF (Or.inl rfl) i unlessKeys w h1
    rcases h2 : (specStripNamespace (enumeratingParams p) IPTC i unlessKeys
        (specStripNamespace (enumeratingParams p) EXIF i unlessKeys w).2).1 with (_ | err2) | _ | _
    · obtain ⟨y1, y2, y3⟩ := specStripNamespace_spec (enumeratingParams p) IPTC (Or.inr (Or.inl rfl)) i
        unlessKeys _ h2
      obtain ⟨z1, z2⟩ := XmpStripMetadata_spec (enumeratingParams p) (enumeratingSnapshot p) i unlessKeys fuel
        (specStripNamespace (enumeratingParams p) IPTC i unlessKeys (specStripNamespace (enumeratingParams p) EXIF i unlessKeys w).2).2
      have hSM : Image.StripMetadata (specStrips (enumeratingParams p)) i unlessKeys fuel w
          = i.XmpStripMetadata unlessKeys fuel (specStripNamespace (enumeratingParams p) IPTC i unlessKeys
              (specStripNamespace (enumeratingParams p) EXIF i unlessKeys w).2).2 := by
        simp only [Image.StripMetadata, e1, e2, h1, h2]
        exact outcome_match_id _
      rw [hSM]
      constructor
      · intro h f hf
        obtain ⟨a1, a2⟩ := z1 h
        have key : (i.XmpStripMetadata unlessKeys fuel (specStripNamespace (enumeratingParams p) IPTC i unlessKeys
            (specStripNamespace (enumeratingParams p) EXIF i unlessKeys w).2).2).2.st.1.model.get f
              = keptEntries unlessKeys (w.st.1.model.get f) := by
          rcases hf with rfl | rfl | rfl
          · rw [a2 EXIF hXE.symm, y2 EXIF hIE.symm, x1]
          · rw [a2 IPTC hXI.symm, y1, x2 IPTC hIE]
          · rw [a1, y2 XMP hXI, x2 XMP hXE]
        exact ⟨key, fun e => by rw [key]; exact hmem _ e⟩
      · intro h
        apply z2
        rw [y2 XMP hXI, x2 XMP hXE]
        exact h
    · refine ⟨fun h => ?_, fun _ => ⟨some err2, ?_⟩⟩
      · simp [Image.StripMetadata, e1, e2, h1, h2] at h
      · simp [Image.StripMetadata, e1, e2, h1, h2]
    · simp [specStripNamespace] at h2
    · simp [specStripNamespace] at h2
  · refine ⟨fun h => ?_, fun _ => ⟨some err1, ?_⟩⟩
    · simp [Image.StripMetadata, e1, h1] at h
    · simp [Image.StripMetadata, e1, h1]
  · simp [specStripNamespace] at h1
  · simp [specStripNamespace] at h1

/-- Witness of C8 with the parameters of the demo codec: with one key excepted per
namespace, `StripMetadata` returns nil and the XMP namespace is left with the excepted
entry. -/
theorem StripMetadata_keeps_excepted_witness :
    (Image.StripMetadata (specStrips (enumeratingParams demoParams)) enumImage
      ["Exif.Image.Copyright", "Iptc.Application2.Copyright", "Xmp.iptc.CreditLine"] 10
      enumWorld).1 = .returned none ∧
    (Image.StripMetadata (specStrips (enumeratingParams demoParams)) enumImage
      ["Exif.Image.Copyright", "Iptc.Application2.Copyright", "Xmp.iptc.CreditLine"] 10
      enumWorld).2.st.1.model.get XMP
      = keptEntries ["Exif.Image.Copyright", "Iptc.Application2.Copyright",
          "Xmp.iptc.CreditLine"] (enumWorld.st.1.model.get XMP) ∧
    keptEntries ["Exif.Image.Copyright", "Iptc.Application2.Copyright",
        "Xmp.iptc.CreditLine"] (enumWorld.st.1.model.get XMP)
      = [(CString "Xmp.iptc.CreditLine", CString "John Doe")] :=
  ⟨rfl,
   ((StripMetadata_keeps_excepted demoParams enumImage
      ["Exif.Image.Copyright", "Iptc.Application2.Copyright", "Xmp.iptc.CreditLine"] 10
      enumWorld).1 rfl XMP (Or.inr (Or.inr rfl))).1,
   rfl⟩

/-- An error of `StripKey` is the codec's error, or the plain error for a format outside
the three namespaces. -/
theorem StripKey_error_cases (c : Codec) (i : Image c) (f : MetadataFormat) (key : String)
    (w : World c) (err : GoError) (h : (i.StripKey f key w).1 = some err) :
    (∃ e : Error, err = .exiv e) ∨
    (err = .errorString "invalid metadata format" ∧ f ≠ EXIF ∧ f ≠ IPTC ∧ f ≠ XMP) := by
  by_cases hE : f = EXIF
  · subst hE
    cases hc : (c.exif_strip_key i.img (CString key) w.st).1 <;>
      simp [Image.StripKey, World.call, World.emit, hc] at h
    exact Or.inl ⟨_, h.symm⟩
  · by_cases hI : f = IPTC
    · subst hI
      cases hc : (c.iptc_strip_key i.img (CString key) w.st).1 <;>
        simp [Image.StripKey, World.call, World.emit, hc, hE] at h
      exact Or.inl ⟨_, h.symm⟩
    · by_cases hX : f = XMP
      · subst hX
        cases hc : (c.xmp_strip_key i.img (CString key) w.st).1 <;>
          simp [Image.StripKey, World.call, World.emit, hc, hE, hI] at h
        exact Or.inl ⟨_, h.symm⟩
      · simp [Image.StripKey, hE, hI, hX] at h
        exact Or.inr ⟨h.symm, hE, hI, hX⟩

/-- An error that the loop of `XmpStripMetadata` returns is a codec error. -/
theorem xmpStripLoop_error_is_Error {c : Codec} (i : Image c) (iter : XmpDatumIterator c)
    (unlessKeys : List String) :
    ∀ (fuel : Nat) (w : World c) (err : GoError),
      (xmpStripLoop i iter unlessKeys fuel w).1 = .returned (some err) →
      ∃ e : Error, err = .exiv e := by
  intro fuel
  induction fuel with
  | zero => intro w err h; simp [xmpStripLoop] at h
  | succ n ih =>
    intro w err h
    rw [xmpStripLoop_succ] at h
    split at h
    · split at h
      · simp at h
      · rename_i d _
        split at h
        · exact ih _ err h
        · split at h
          · rename_i err2 hs
            simp only [Outcome.returned.injEq, Option.some.injEq] at h
            subst h
            rcases StripKey_error_cases c i XMP _ _ _ hs with he | ⟨_, _, _, hX⟩
            · exact he
            · exact absurd rfl hX
          · exact ih _ err h
    · simp at h

/-- C11 as stated fails: `SetMetadataString` with the unrecognized format 999 and
`GetString` of a valid key that is not present return an error that is no `Error` value:
it is made by `errors.New` and carries a text only, no code. -/
theorem plain_errors_are_returned :
    (demoImage.SetMetadataString 999 "Exif.Photo.UserComment" "Hello, world!" demoWorld).1
      = some (.errorString "invalid metadata type") ∧
    (∀ e : Error,
      (demoImage.SetMetadataString 999 "Exif.Photo.UserComment" "Hello, world!" demoWorld).1
        ≠ some (.exiv e)) ∧
    ((demoImage.GetXmpData demoWorld).1.GetString "Xmp.dc.title" demoWorld).1.2
      = some (.errorString "key not found") ∧
    (∀ e : Error,
      ((demoImage.GetXmpData demoWorld).1.GetString "Xmp.dc.title" demoWorld).1.2
        ≠ some (.exiv e)) := by
  refine ⟨rfl, ?_, rfl, ?_⟩
  · intro e h
    have h2 : (demoImage.SetMetadataString 999 "Exif.Photo.UserComment" "Hello, world!"
        demoWorld).1 = some (.errorString "invalid metadata type") := rfl
    rw [h2] at h
    simp at h
  · intro e h
    have h2 : ((demoImage.GetXmpData demoWorld).1.GetString "Xmp.dc.title" demoWorld).1.2
        = some (.errorString "key not found") := rfl
    rw [h2] at h
    simp at h

/-- C11 amended: every error of `Open`, `OpenBytes`, `ReadMetadata`, `FindKey` and
`XmpStripMetadata` is an `Error` value, with code and message. An error of
`SetMetadataString`, `SetMetadataShort` or `StripKey` is an `Error` value, or the plain
error for a format they do not accept ("invalid metadata type", "invalid metadata
format"). An error of `GetString` is an `Error` value or the plain
`ErrMetadataKeyNotFound`. An error of `StripMetadata` is the error that the EXIF strip or
the IPTC strip returned, or an `Error` value. -/
theorem errors_classified (c : Codec) (ns : NamespaceStrips c) (i : Image c)
    (d : XmpData c) (w : World c) (err : GoError) :
    (∀ path, (Open c path w).1.2 = some err → ∃ e : Error, err = .exiv e) ∧
    (∀ input, (OpenBytes c input w).1.2 = some err → ∃ e : Error, err = .exiv e) ∧
    ((i.ReadMetadata w).1 = some err → ∃ e : Error, err = .exiv e) ∧
    (∀ key, (d.FindKey key w).1.2 = some err → ∃ e : Error, err = .exiv e) ∧
    (∀ unlessKeys fuel, (i.XmpStripMetadata unlessKeys fuel w).1 = .returned (some err) →
      ∃ e : Error, err = .exiv e) ∧
    (∀ f key value, (i.SetMetadataString f key value w).1 = some err →
      (∃ e : Error, err = .exiv e) ∨
      (err = .errorString "invalid metadata type" ∧ f ≠ EXIF ∧ f ≠ IPTC ∧ f ≠ XMP)) ∧
    (∀ f key value, (i.SetMetadataShort f key value w).1 = some err →
      (∃ e : Error, err = .exiv e) ∨
      (err = .errorString "invalid metadata type" ∧ f ≠ EXIF ∧ f ≠ IPTC)) ∧
    (∀ f key, (i.StripKey f key w).1 = some err →
      (∃ e : Error, err = .exiv e) ∨
      (err = .errorString "invalid metadata format" ∧ f ≠ EXIF ∧ f ≠ IPTC ∧ f ≠ XMP)) ∧
    (∀ key, (d.GetString key w).1.2 = some err →
      (∃ e : Error, err = .exiv e) ∨ err = ErrMetadataKeyNotFound) ∧
    (∀ unlessKeys fuel,
      (Image.StripMetadata ns i unlessKeys fuel w).1 = .returned (some err) →
      (ns.ExifStripMetadata i unlessKeys w).1 = .returned (some err) ∨
      (ns.IptcStripMetadata i unlessKeys (ns.ExifStripMetadata i unlessKeys w).2).1
        = .returned (some err) ∨
      ∃ e : Error, err = .exiv e) := by
  have hFind : ∀ key, (d.FindKey key w).1.2 = some err → ∃ e : Error, err = .exiv e := by
    intro key h
    rw [FindKey_result] at h
    cases hc : (c.xmp_data_find_key d.data (CString key) w.st).1.2 <;> simp [hc] at h
    exact ⟨_, h.symm⟩
  refine ⟨?_, ?_, ?_, hFind, ?_, ?_, ?_, ?_, ?_, ?_⟩
  · intro path h
    cases hc : (c.image_factory_open (CString path) w.st).1.2 <;>
      simp [Open, World.call, World.emit, hc] at h
    exact ⟨_, h.symm⟩
  · intro input h
    by_cases hl : len input = 0
    · simp [OpenBytes, hl] at h
      exact ⟨_, h.symm⟩
    · cases hc : (c.image_factory_open_bytes (CBytes input) (len input) w.st).1.2 <;>
        simp [OpenBytes, hl, World.call, World.emit, hc] at h
      exact ⟨_, h.symm⟩
  · intro h
    cases hc : (c.image_read_metadata i.img w.st).1 <;>
      simp [Image.ReadMetadata, World.call, hc] at h
    exact ⟨_, h.symm⟩
  · intro unlessKeys fuel h
    exact xmpStripLoop_error_is_Error i _ unlessKeys fuel _ err h
  · intro f key value h
    by_cases hE : f = EXIF
    · subst hE
      cases hc : (c.image_set_exif_string i.img (CString key) (CString value) w.st).1 <;>
        simp [Image.SetMetadataString, World.call, World.emit, hc] at h
      exact Or.inl ⟨_, h.symm⟩
    · by_cases hI : f = IPTC
      · subst hI
        cases hc : (c.image_set_iptc_string i.img (CString key) (CString value) w.st).1 <;>
          simp [Image.SetMetadataString, World.call, World.emit, hc, hE] at h
        exact Or.inl ⟨_, h.symm⟩
      · by_cases hX : f = XMP
        · subst hX
          cases hc : (c.image_set_xmp_string i.img (CString key) (CString value) w.st).1 <;>
            simp [Image.SetMetadataString, World.call, World.emit, hc, hE, hI] at h
          exact Or.inl ⟨_, h.symm⟩
        · simp [Image.SetMetadataString, hE, hI, hX] at h
          exact Or.inr ⟨h.symm, hE, hI, hX⟩
  · intro f key value h
    by_cases hE : f = EXIF
    · subst hE
      cases hc : (c.image_set_exif_short i.img (CString key) (CString value) w.st).1 <;>
        simp [Image.SetMetadataShort, World.call, World.emit, hc] at h
      exact Or.inl ⟨_, h.symm⟩
    · by_cases hI : f = IPTC
      · subst hI
        cases hc : (c.image_set_iptc_short i.img (CString key) (CString value) w.st).1 <;>
          simp [Image.SetMetadataShort, World.call, World.emit, hc, hE] at h
        exact Or.inl ⟨_, h.symm⟩
      · simp [Image.SetMetadataShort, hE, hI] at h
        exact Or.inr ⟨h.symm, hE, hI⟩
  · intro f key h
    exact StripKey_error_cases c i f key w err h
  · intro key h
    rw [GetString_result] at h
    cases h2 : (d.FindKey key w).1.2 with
    | some err2 =>
      simp [h2] at h
      subst h
      exact Or.inl (hFind key h2)
    | none =>
      cases h1 : (d.FindKey key w).1.1 with
      | none =>
        simp [h2, h1] at h
        exact Or.inr h.symm
      | some datum => simp [h2, h1] at h
  · intro unlessKeys fuel h
    rcases h1 : (ns.ExifStripMetadata i unlessKeys w).1 with (_ | e1) | _ | _
    · rcases h2 : (ns.IptcStripMetadata i unlessKeys
          (ns.ExifStripMetadata i unlessKeys w).2).1 with (_ | e2) | _ | _
      · right; right
        have hSM : Image.StripMetadata ns i unlessKeys fuel w
            = i.XmpStripMetadata unlessKeys fuel (ns.IptcStripMetadata i unlessKeys
                (ns.ExifStripMetadata i unlessKeys w).2).2 := by
          simp only [Image.StripMetadata, h1, h2]
          exact outcome_match_id _
        rw [hSM] at h
        exact xmpStripLoop_error_is_Error i _ unlessKeys fuel _ err h
      · right; left
        simp [Image.StripMetadata, h1, h2] at h
        rw [h]
      · simp [Image.StripMetadata, h1, h2] at h
      · simp [Image.StripMetadata, h1, h2] at h
    · left
      simp [Image.StripMetadata, h1] at h
      rw [h]
    · simp [Image.StripMetadata, h1] at h
    · simp [Image.StripMetadata, h1] at h

/-- Witness of the amended C11 on the demo codec: the error of opening a path that does
not exist is an `Error` value. -/
theorem errors_classified_witness :
    ∃ e : Error,
      GoError.exiv { code := 9, what := "Failed to open the data source" } = .exiv e :=
  (errors_classified demoCodec demoStrips demoImage (demoImage.GetXmpData demoWorld).1
    demoWorld (.exiv { code := 9, what := "Failed to open the data source" })).1
    "thisimagedoesnotexist" rfl

/-- The conversion to `C.int` keeps every value in the range of a C `int`. -/
theorem C_int_of_inRange (x : Int) (h1 : -2 ^ 31 ≤ x) (h2 : x < 2 ^ 31) : C_int x = x := by
  unfold C_int
  have h3 : (x + 2 ^ 31) % 2 ^ 32 = x + 2 ^ 31 :=
    Int.emod_eq_of_lt (by omega) (by omega)
  omega

/-- C12: `ICCProfile` reads the size the codec reports as a C `int`. Whenever that size is
zero or negative it returns nil and its only foreign call is the one for the size: the
profile pointer is not read. When the size `n` is positive it returns the first `n` bytes
at the profile pointer: exactly `n` bytes, the whole profile when the profile has `n`
bytes. A size in the range of `int` is read as it is. -/
theorem ICCProfile_by_size (c : Codec) (i : Image c) (w : World c) :
    (C_int (c.image_icc_profile_size i.img w.st).1 ≤ 0 →
      (i.ICCProfile w).1 = none ∧
      callsSince w (i.ICCProfile w).2 = [.exiv2_image_icc_profile_size] ∧
      (i.ICCProfile w).2.st = (c.image_icc_profile_size i.img w.st).2) ∧
    (0 < C_int (c.image_icc_profile_size i.img w.st).1 →
      (i.ICCProfile w).1
        = some ((c.image_icc_profile i.img (c.image_icc_profile_size i.img w.st).2).1.take
            (C_int (c.image_icc_profile_size i.img w.st).1).toNat) ∧
      ((C_int (c.image_icc_profile_size i.img w.st).1).toNat
          ≤ (c.image_icc_profile i.img (c.image_icc_profile_size i.img w.st).2).1.length →
        ∃ b, (i.ICCProfile w).1 = some b ∧
          (b.length : Int) = C_int (c.image_icc_profile_size i.img w.st).1) ∧
      ((((c.image_icc_profile i.img (c.image_icc_profile_size i.img w.st).2).1.length : Nat)
            : Int) = C_int (c.image_icc_profile_size i.img w.st).1 →
        (i.ICCProfile w).1
          = some (c.image_icc_profile i.img (c.image_icc_profile_size i.img w.st).2).1)) ∧
    (∀ x : Int, -2 ^ 31 ≤ x → x < 2 ^ 31 → C_int x = x) := by
  refine ⟨?_, ?_, C_int_of_inRange⟩
  · intro h
    refine ⟨?_, ?_, ?_⟩
    · simp [Image.ICCProfile, World.call, h]
    · simp [callsSince, Image.ICCProfile, World.call, h]
    · simp [Image.ICCProfile, World.call, h]
  · intro h
    have hn : ¬ C_int (c.image_icc_profile_size i.img w.st).1 ≤ 0 := not_le.mpr h
    have hres : (i.ICCProfile w).1
        = some ((c.image_icc_profile i.img (c.image_icc_profile_size i.img w.st).2).1.take
            (C_int (c.image_icc_profile_size i.img w.st).1).toNat) := by
      simp [Image.ICCProfile, World.call, hn, GoBytes]
    refine ⟨hres, ?_, ?_⟩
    · intro hlen
      refine ⟨_, hres, ?_⟩
      rw [List.length_take, Nat.min_eq_left hlen]
      exact Int.toNat_of_nonneg (le_of_lt h)
    · intro hlen
      rw [hres, ← hlen]
      simp

/-- Witness of C12 on the demo codec, whose image has no profile: the size is 0 and the
result is nil. -/
theorem ICCProfile_by_size_witness : (demoImage.ICCProfile demoWorld).1 = none :=
  ((ICCProfile_by_size demoCodec demoImage demoWorld).1 (by decide)).1

/-- The loop of `getKeysToRemove` appends, to what it has collected, the visited keys that
are not excepted, in the order of the visit. -/
theorem getKeysToRemove_loop (unlessKeys : List String) :
    ∀ (entries : List (String × String)) (acc : List String),
      entries.foldl
          (fun tagsToRemove kv =>
            if !contains kv.1 unlessKeys then tagsToRemove ++ [kv.1] else tagsToRemove) acc
        = acc ++ (entries.map Prod.fst).filter (fun key => !contains key unlessKeys) := by
  intro entries
  induction entries with
  | nil => intro acc; simp
  | cons kv rest ih =>
    intro acc
    rw [List.foldl_cons, ih]
    by_cases h : contains kv.1 unlessKeys = true
    · simp [h]
    · simp [h, List.filter_cons]

/-- C16: `getKeysToRemove(m, unless)` returns exactly the keys of `m.AllTags()` that are
not elements of `unless`: every returned key is a key of the map and not in `unless`,
every key of the map that is not in `unless` is returned, and no key is returned twice.
`contains(needle, haystack)` is true exactly when `needle` equals an element of
`haystack`. -/
theorem getKeysToRemove_is_difference (m : dataFormat) (unlessKeys : List String) :
    (∀ key, key ∈ getKeysToRemove m unlessKeys ↔
      key ∈ m.AllTags.entries.map Prod.fst ∧ key ∉ unlessKeys) ∧
    (getKeysToRemove m unlessKeys).Nodup ∧
    (∀ needle haystack, contains needle haystack = true ↔ ∃ s ∈ haystack, s = needle) := by
  have hEq : getKeysToRemove m unlessKeys
      = (m.AllTags.entries.map Prod.fst).filter (fun key => !contains key unlessKeys) := by
    unfold getKeysToRemove
    rw [getKeysToRemove_loop]
    simp
  refine ⟨?_, ?_, ?_⟩
  · intro key
    rw [hEq, List.mem_filter]
    constructor
    · rintro ⟨h1, h2⟩
      refine ⟨h1, fun hin => ?_⟩
      rw [(contains_eq_true_iff key unlessKeys).mpr hin] at h2
      simp at h2
    · rintro ⟨h1, h2⟩
      refine ⟨h1, ?_⟩
      have : contains key unlessKeys = false := by
        cases hc : contains key unlessKeys
        · rfl
        · exact absurd ((contains_eq_true_iff key unlessKeys).mp hc) h2
      simp [this]
  · rw [hEq]
    exact m.AllTags.nodup.filter _
  · intro needle haystack
    rw [contains_eq_true_iff]
    constructor
    · intro h
      exact ⟨needle, h, rfl⟩
    · rintro ⟨s, hs, rfl⟩
      exact hs

/-- On every codec, when opening a non-empty input fails, `OpenBytes` returns no Image
and its foreign calls are the copy of the input, the codec's open, and the reading and
freeing of the codec's error: the copy is not freed. -/
theorem OpenBytes_error_calls (c : Codec) (input : ByteSlice) (w : World c)
    (cerr : Exiv2Error) (hl : len input ≠ 0)
    (h : (c.image_factory_open_bytes (CBytes input) (len input) w.st).1.2 = some cerr) :
    (OpenBytes c input w).1.1 = none ∧
    callsSince w (OpenBytes c input w).2
      = [.CBytes (CBytes input), .exiv2_image_factory_open_bytes (CBytes input) (len input),
         .exiv2_error_code, .exiv2_error_what, .exiv2_error_free] := by
  constructor
  · simp [OpenBytes, hl, World.call, World.emit, h]
  · simp [callsSince, OpenBytes, hl, World.call, World.emit, h, makeError]

/-- On every codec, the finalizer of an Image frees the decoded container once and, when
the Image holds a copy of the input, that copy once. -/
theorem finalizer_calls (c : Codec) (cimg : c.Image) (w : World c) :
    callsSince w ((makeImage cimg none).finalizer w) = [.exiv2_image_free] ∧
    (∀ p, callsSince w ((makeImage cimg (some p)).finalizer w)
      = [.exiv2_image_free, .free_bytes p]) := by
  constructor
  · simp [callsSince, Image.finalizer, makeImage, World.call]
  · intro p
    simp [callsSince, Image.finalizer, makeImage, World.call, World.emit]

/-- C14, the code at the failing input: `OpenBytes` of the eight bytes of the text
"no image" fails with the codec's error 20 and returns no Image; it has copied the input
with `C.CBytes` and no call frees the copy, on this path or later, since no Image and so
no finalizer exists. On the success path (bytes that start with the JPEG marker) the
Image holds the copy and its finalizer frees the container and the copy once each; an
Image made by `Open` holds no copy and its finalizer frees the container only, and `Open`
frees the C string of the path once on both of its paths. -/
theorem OpenBytes_failure_never_frees_copy :
    (OpenBytes demoCodec (some [110, 111, 32, 105, 109, 97, 103, 101]) demoWorld).1
      = (none, some (.exiv { code := 20, what := "Failed to read input data" })) ∧
    callsSince demoWorld
        (OpenBytes demoCodec (some [110, 111, 32, 105, 109, 97, 103, 101]) demoWorld).2
      = [.CBytes [110, 111, 32, 105, 109, 97, 103, 101],
         .exiv2_image_factory_open_bytes [110, 111, 32, 105, 109, 97, 103, 101] 8,
         .exiv2_error_code, .exiv2_error_what, .exiv2_error_free] ∧
    ((callsSince demoWorld
        (OpenBytes demoCodec (some [110, 111, 32, 105, 109, 97, 103, 101]) demoWorld).2).filter
      (fun ev => decide (ev = .free_bytes [110, 111, 32, 105, 109, 97, 103, 101]))).length
      = 0 ∧
    (OpenBytes demoCodec (some [0xFF, 0xD8, 0xFF, 0xE0]) demoWorld).1
      = (some { bytesArrayPtr := some [0xFF, 0xD8, 0xFF, 0xE0], img := () }, none) ∧
    callsSince demoWorld
        ((makeImage (c := demoCodec) () (some [0xFF, 0xD8, 0xFF, 0xE0])).finalizer
          (OpenBytes demoCodec (some [0xFF, 0xD8, 0xFF, 0xE0]) demoWorld).2)
      = [.CBytes [0xFF, 0xD8, 0xFF, 0xE0],
         .exiv2_image_factory_open_bytes [0xFF, 0xD8, 0xFF, 0xE0] 4,
         .exiv2_image_free, .free_bytes [0xFF, 0xD8, 0xFF, 0xE0]] ∧
    (Open demoCodec "testdata/pixel.jpg" demoWorld).1
      = (some { bytesArrayPtr := none, img := () }, none) ∧
    callsSince demoWorld
        ((makeImage (c := demoCodec) () none).finalizer
          (Open demoCodec "testdata/pixel.jpg" demoWorld).2)
      = [.CString "testdata/pixel.jpg",
         .exiv2_image_factory_open (CString "testdata/pixel.jpg"),
         .free_string (CString "testdata/pixel.jpg"), .exiv2_image_free] ∧
    callsSince demoWorld (Open demoCodec "thisimagedoesnotexist" demoWorld).2
      = [.CString "thisimagedoesnotexist",
         .exiv2_image_factory_open (CString "thisimagedoesnotexist"),
         .exiv2_error_code, .exiv2_error_what, .exiv2_error_free,
         .free_string (CString "thisimagedoesnotexist")] := by
  refine ⟨rfl, rfl, rfl, rfl, rfl, rfl, rfl, rfl⟩

/-- The foreign calls of a setter call of the Go code, given the call that enters the
codec and the answer of the codec: the two C strings are made, the codec is entered once,
its error, if any, is read and freed, and the two C strings are freed. -/
theorem setter_calls_shape (key value : String) (setter : Call) (hs : setter.isSetter = true)
    (answer : Option Exiv2Error) :
    ([Call.CString key, Call.CString value, setter]
        ++ (match answer with
            | none => []
            | some _ => [Call.exiv2_error_code, Call.exiv2_error_what, Call.exiv2_error_free])
        ++ [Call.free_string (CString key), Call.free_string (CString value)]).filter
      Call.isSetter = [setter] := by
  have h1 : (Call.CString key).isSetter = false := rfl
  have h2 : (Call.CString value).isSetter = false := rfl
  have h3 : Call.exiv2_error_code.isSetter = false := rfl
  have h4 : Call.exiv2_error_what.isSetter = false := rfl
  have h5 : Call.exiv2_error_free.isSetter = false := rfl
  have h6 : (Call.free_string (CString key)).isSetter = false := rfl
  have h7 : (Call.free_string (CString value)).isSetter = false := rfl
  cases answer <;> simp [List.filter_cons, hs, h1, h2, h3, h4, h5, h6, h7]

/-- C15 as stated fails: the setter is not handed key and value unchanged when one of
them holds a NUL. `SetMetadataString(XMP, "Xmp.dc.title", "a\0b")` enters the codec with
the value "a". -/
theorem setter_receives_C_strings :
    (callsSince demoWorld
        (demoImage.SetMetadataString XMP "Xmp.dc.title" ⟨['a', NUL, 'b']⟩ demoWorld).2).filter
      Call.isSetter
      = [.exiv2_image_set_xmp_string (CString "Xmp.dc.title") (CString "a")] ∧
    (CString ⟨['a', NUL, 'b']⟩).val = "a" ∧
    ("a" : String) ≠ ⟨['a', NUL, 'b']⟩ := by
  refine ⟨?_, rfl, by decide⟩
  decide

/-- C15 amended: for each of EXIF, IPTC and XMP, every key and value,
`SetMetadataString` enters the codec exactly once, through the string setter of that
namespace, with the C strings of key and value (key and value themselves when they hold
no NUL), and through no other setter. The unmanaged state it leaves is the state that
setter left, so whatever that setter leaves alone is unchanged, and on the codec as the
specification describes it the two other namespaces are unchanged. It returns nil exactly
when the setter reports no error. `SetXmpString(key, value)` is
`SetMetadataString(XMP, key, value)`. -/
theorem SetMetadataString_dispatch (c : Codec) (i : Image c) (key value : String)
    (w : World c) :
    ((callsSince w (i.SetMetadataString EXIF key value w).2).filter Call.isSetter
        = [.exiv2_image_set_exif_string (CString key) (CString value)] ∧
      (i.SetMetadataString EXIF key value w).2.st
        = (c.image_set_exif_string i.img (CString key) (CString value) w.st).2 ∧
      ((i.SetMetadataString EXIF key value w).1 = none ↔
        (c.image_set_exif_string i.img (CString key) (CString value) w.st).1 = none)) ∧
    ((callsSince w (i.SetMetadataString IPTC key value w).2).filter Call.isSetter
        = [.exiv2_image_set_iptc_string (CString key) (CString value)] ∧
      (i.SetMetadataString IPTC key value w).2.st
        = (c.image_set_iptc_string i.img (CString key) (CString value) w.st).2 ∧
      ((i.SetMetadataString IPTC key value w).1 = none ↔
        (c.image_set_iptc_string i.img (CString key) (CString value) w.st).1 = none)) ∧
    ((callsSince w (i.SetMetadataString XMP key value w).2).filter Call.isSetter
        = [.exiv2_image_set_xmp_string (CString key) (CString value)] ∧
      (i.SetMetadataString XMP key value w).2.st
        = (c.image_set_xmp_string i.img (CString key) (CString value) w.st).2 ∧
      ((i.SetMetadataString XMP key value w).1 = none ↔
        (c.image_set_xmp_string i.img (CString key) (CString value) w.st).1 = none)) ∧
    (NUL ∉ key.data → NUL ∉ value.data →
      (CString key).val = key ∧ (CString value).val = value) ∧
    (∀ (p : SpecParams) (j : Image (specCodec p)) (v : World (specCodec p))
      (f g : MetadataFormat), g ≠ f →
      (j.SetMetadataString f key value v).2.st.1.model.get g = v.st.1.model.get g) ∧
    i.SetXmpString key value w = i.SetMetadataString XMP key value w := by
  have hIE : IPTC ≠ EXIF := by decide
  have hXE : XMP ≠ EXIF := by decide
  have hXI : XMP ≠ IPTC := by decide
  refine ⟨⟨?_, ?_, ?_⟩, ⟨?_, ?_, ?_⟩, ⟨?_, ?_, ?_⟩, ?_, ?_, rfl⟩
  · have hc : callsSince w (i.SetMetadataString EXIF key value w).2
        = [Call.CString key, Call.CString value,
            Call.exiv2_image_set_exif_string (CString key) (CString value)]
          ++ (match (c.image_set_exif_string i.img (CString key) (CString value) w.st).1 with
              | none => []
              | some _ => [Call.exiv2_error_code, Call.exiv2_error_what,
                  Call.exiv2_error_free])
          ++ [Call.free_string (CString key), Call.free_string (CString value)] := by
      cases h : (c.image_set_exif_string i.img (CString key) (CString value) w.st).1 <;>
        simp [callsSince, Image.SetMetadataString, World.call, World.emit, h, makeError]
    rw [hc]
    exact setter_calls_shape key value
      (.exiv2_image_set_exif_string (CString key) (CString value)) rfl _
  · cases h : (c.image_set_exif_string i.img (CString key) (CString value) w.st).1 <;>
      simp [Image.SetMetadataString, World.call, World.emit, h, makeError]
  · cases h : (c.image_set_exif_string i.img (CString key) (CString value) w.st).1 <;>
      simp [Image.SetMetadataString, World.call, World.emit, h, makeError]
  · have hc : callsSince w (i.SetMetadataString IPTC key value w).2
        = [Call.CString key, Call.CString value,
            Call.exiv2_image_set_iptc_string (CString key) (CString value)]
          ++ (match (c.image_set_iptc_string i.img (CString key) (CString value) w.st).1 with
              | none => []
              | some _ => [Call.exiv2_error_code, Call.exiv2_error_what,
                  Call.exiv2_error_free])
          ++ [Call.free_string (CString key), Call.free_string (CString value)] := by
      cases h : (c.image_set_iptc_string i.img (CString key) (CString value) w.st).1 <;>
        simp [callsSince, Image.SetMetadataString, World.call, World.emit, h, makeError, hIE]
    rw [hc]
    exact setter_calls_shape key value
      (.exiv2_image_set_iptc_string (CString key) (CString value)) rfl _
  · cases h : (c.image_set_iptc_string i.img (CString key) (CString value) w.st).1 <;>
      simp [Image.SetMetadataString, World.call, World.emit, h, makeError, hIE]
  · cases h : (c.image_set_iptc_string i.img (CString key) (CString value) w.st).1 <;>
      simp [Image.SetMetadataString, World.call, World.emit, h, makeError, hIE]
  · have hc : callsSince w (i.SetMetadataString XMP key value w).2
        = [Call.CString key, Call.CString value,
            Call.exiv2_image_set_xmp_string (CString key) (CString value)]
          ++ (match (c.image_set_xmp_string i.img (CString key) (CString value) w.st).1 with
              | none => []
              | some _ => [Call.exiv2_error_code, Call.exiv2_error_what,
                  Call.exiv2_error_free])
          ++ [Call.free_string (CString key), Call.free_string (CString value)] := by
      cases h : (c.image_set_xmp_string i.img (CString key) (CString value) w.st).1 <;>
        simp [callsSince, Image.SetMetadataString, World.call, World.emit, h, makeError, hXE,
          hXI]
    rw [hc]
    exact setter_calls_shape key value
      (.exiv2_image_set_xmp_string (CString key) (CString value)) rfl _
  · cases h : (c.image_set_xmp_string i.img (CString key) (CString value) w.st).1 <;>
      simp [Image.SetMetadataString, World.call, World.emit, h, makeError, hXE, hXI]
  · cases h : (c.image_set_xmp_string i.img (CString key) (CString value) w.st).1 <;>
      simp [Image.SetMetadataString, World.call, World.emit, h, makeError, hXE, hXI]
  · intro hk hv
    exact ⟨CString_val_of_nulFree key hk, CString_val_of_nulFree value hv⟩
  · intro p j v f g hg
    by_cases hf : f = EXIF ∨ f = IPTC ∨ f = XMP
    · cases hr : (j.SetMetadataString f key value v).1 with
      | none =>
        rw [(SetMetadataString_spec_state p j f key value v hf hr).2]
        exact Tags.get_set_of_ne _ _ _ _ hg
      | some err =>
        have hst : (j.SetMetadataString f key value v).2.st = v.st := by
          rcases hf with rfl | rfl | rfl
          · cases hk : p.keyError EXIF (CString key) with
            | some e =>
              simp [Image.SetMetadataString, World.call, World.emit, specCodec, specSet, hk,
                makeError]
            | none =>
              simp [Image.SetMetadataString, World.call, World.emit, specCodec, specSet,
                hk] at hr
          · cases hk : p.keyError IPTC (CString key) with
            | some e =>
              simp [Image.SetMetadataString, World.call, World.emit, specCodec, specSet, hk,
                makeError, hIE]
            | none =>
              simp [Image.SetMetadataString, World.call, World.emit, specCodec, specSet, hk,
                hIE] at hr
          · cases hk : p.keyError XMP (CString key) with
            | some e =>
              simp [Image.SetMetadataString, World.call, World.emit, specCodec, specSet, hk,
                makeError, hXE, hXI]
            | none =>
              simp [Image.SetMetadataString, World.call, World.emit, specCodec, specSet, hk,
                hXE, hXI] at hr
        rw [hst]
    · have hE : f ≠ EXIF := fun h => hf (Or.inl h)
      have hI : f ≠ IPTC := fun h => hf (Or.inr (Or.inl h))
      have hX : f ≠ XMP := fun h => hf (Or.inr (Or.inr h))
      have hst : (j.SetMetadataString f key value v).2.st = v.st := by
        simp [Image.SetMetadataString, hE, hI, hX, World.emit]
      rw [hst]

/-- Witness of the amended C15 on the demo codec: the text of the tests has no NUL and
reaches the setter unchanged. -/
theorem SetMetadataString_dispatch_witness :
    (CString "Exif.Photo.UserComment").val = "Exif.Photo.UserComment" ∧
    (CString "Hello, world! Привет, мир!").val = "Hello, world! Привет, мир!" :=
  (SetMetadataString_dispatch demoCodec demoImage "Exif.Photo.UserComment"
    "Hello, world! Привет, мир!" demoWorld).2.2.2.1 (by decide) (by decide)

/-- Stripping a key drops an entry stored under it. -/
theorem Entries.strip_cons_self (k : CStr) (e : CStr × CStr) (rest : Entries)
    (h : e.1 = k) : Entries.strip k (e :: rest) = Entries.strip k rest := by
  unfold Entries.strip
  rw [List.filter_cons_of_neg]
  simpa using h

/-- Stripping a key keeps an entry stored under another key. -/
theorem Entries.strip_cons_other (k : CStr) (e : CStr × CStr) (rest : Entries)
    (h : ¬ e.1 = k) : Entries.strip k (e :: rest) = e :: Entries.strip k rest := by
  unfold Entries.strip
  rw [List.filter_cons_of_pos]
  simpa using h

/-- A key that was stripped is not found. -/
theorem Entries.find_strip_self (k : CStr) (l : Entries) :
    Entries.find k (Entries.strip k l) = none := by
  induction l with
  | nil => rfl
  | cons e rest ih =>
    by_cases h : e.1 = k
    · rw [Entries.strip_cons_self k e rest h]; exact ih
    · rw [Entries.strip_cons_other k e rest h]
      show (if e.1 = k then some e else Entries.find k (Entries.strip k rest)) = none
      rw [if_neg h]; exact ih

/-- Stripping a key does not change what is found under another key. -/
theorem Entries.find_strip_of_ne (k k2 : CStr) (l : Entries) (hne : k2 ≠ k) :
    Entries.find k2 (Entries.strip k l) = Entries.find k2 l := by
  induction l with
  | nil => rfl
  | cons e rest ih =>
    have hfind : Entries.find k2 (e :: rest)
        = if e.1 = k2 then some e else Entries.find k2 rest := rfl
    by_cases h : e.1 = k
    · have h2 : ¬ e.1 = k2 := fun h3 => hne (h3.symm.trans h)
      rw [Entries.strip_cons_self k e rest h, hfind, if_neg h2]; exact ih
    · rw [Entries.strip_cons_other k e rest h, hfind]
      show (if e.1 = k2 then some e else Entries.find k2 (Entries.strip k rest)) = _
      rw [ih]

/-- What the modelled `GetString` returns depends on the in-memory model only. -/
theorem specGetString_congr (p : SpecParams) (f : MetadataFormat) (key : String)
    (s t : SpecImage) (h : s.model.get f = t.model.get f) :
    specGetString p f key s = specGetString p f key t := by
  simp only [specGetString, specFind, h]

/-- Two texts without NUL that differ have different C strings. -/
theorem CString_ne_of_ne (a b : String) (ha : NUL ∉ a.data) (hb : NUL ∉ b.data)
    (h : a ≠ b) : CString a ≠ CString b := by
  intro heq
  apply h
  rw [← CString_val_of_nulFree a ha, ← CString_val_of_nulFree b hb, heq]

/-- C13 as stated fails for a key that holds a NUL: the codec is handed the C string that
ends there. On the demo codec with the XMP keys `Xmp.iptc.CreditLine` and
`Xmp.iptc.JobId`, `StripKey(XMP, "Xmp.iptc.JobId\0x")` returns nil and removes the other
key `Xmp.iptc.JobId`: `GetString("Xmp.iptc.JobId")` returned "12345" before and fails
afterwards. -/
theorem StripKey_with_NUL_removes_another_key :
    (demoImage.StripKey XMP ⟨"Xmp.iptc.JobId".data ++ [NUL, 'x']⟩ loadedWorld).1 = none ∧
    ("Xmp.iptc.JobId" : String) ≠ ⟨"Xmp.iptc.JobId".data ++ [NUL, 'x']⟩ ∧
    readBack demoParams demoImage XMP "Xmp.iptc.JobId" loadedWorld = ("12345", none) ∧
    readBack demoParams demoImage XMP "Xmp.iptc.JobId"
      (demoImage.StripKey XMP ⟨"Xmp.iptc.JobId".data ++ [NUL, 'x']⟩ loadedWorld).2
      = ("", some ErrMetadataKeyNotFound) := by
  refine ⟨rfl, by decide, rfl, rfl⟩

/-- C13 amended: on the codec as the specification describes it, for every namespace
EXIF, IPTC or XMP and every key without NUL, after `StripKey` returned nil,
`GetString(key)` on that namespace fails, also after `ReadMetadata`; the namespace holds
the entries it held whose key is not the stripped one; `GetString` of every other key of
the namespace and of every key of every other namespace returns what it returned before,
also after `ReadMetadata`. `XmpStripKey(key)` is `StripKey(XMP, key)`. -/
theorem StripKey_removes_exactly_one_key (p : SpecParams) (i : Image (specCodec p))
    (f : MetadataFormat) (key : String) (w : World (specCodec p))
    (hf : f = EXIF ∨ f = IPTC ∨ f = XMP) (hk : NUL ∉ key.data)
    (h : (i.StripKey f key w).1 = none) :
    (readBack p i f key (i.StripKey f key w).2).2 ≠ none ∧
    (readBack p i f key (i.ReadMetadata (i.StripKey f key w).2).2).2 ≠ none ∧
    (i.StripKey f key w).2.st.1.model.get f
      = (w.st.1.model.get f).filter (fun e => decide (e.1 ≠ CString key)) ∧
    (∀ other, NUL ∉ other.data → other ≠ key →
      readBack p i f other (i.StripKey f key w).2 = readBack p i f other w ∧
      readBack p i f other (i.ReadMetadata (i.StripKey f key w).2).2
        = readBack p i f other w) ∧
    (∀ g other, g ≠ f →
      readBack p i g other (i.StripKey f key w).2 = readBack p i g other w ∧
      readBack p i g other (i.ReadMetadata (i.StripKey f key w).2).2
        = readBack p i g other w) ∧
    (∀ k v, i.XmpStripKey k v = i.StripKey XMP k v) := by
  have hst := StripKey_spec_state p i f key w hf h
  have hmodel : (i.StripKey f key w).2.st.1.model
      = w.st.1.model.set f ((w.st.1.model.get f).strip (CString key)) := by rw [hst]
  have hread : (i.ReadMetadata (i.StripKey f key w).2).2.st.1.model
      = (i.StripKey f key w).2.st.1.model :=
    ReadMetadata_spec_model p i _ (by rw [hst])
  have hkerr : p.keyError f (CString key) = none := by
    cases hk2 : p.keyError f (CString key) with
    | none => rfl
    | some e =>
      exfalso
      have hIE : IPTC ≠ EXIF := by decide
      have hXE : XMP ≠ EXIF := by decide
      have hXI : XMP ≠ IPTC := by decide
      rcases hf with rfl | rfl | rfl
      · simp [Image.StripKey, World.call, World.emit, specCodec, specStrip, hk2,
          makeError] at h
      · simp [Image.StripKey, World.call, World.emit, specCodec, specStrip, hk2, makeError,
          hIE] at h
      · simp [Image.StripKey, World.call, World.emit, specCodec, specStrip, hk2, makeError,
          hXE, hXI] at h
  have hfail : ∀ s : SpecImage,
      s.model = w.st.1.model.set f ((w.st.1.model.get f).strip (CString key)) →
      (specGetString p f key s).2 ≠ none := by
    intro s hs
    simp [specGetString, specFind, hkerr, hs, Tags.get_set _ _ _ hf,
      Entries.find_strip_self]
  have hother : ∀ (s : SpecImage) (other : String),
      s.model = w.st.1.model.set f ((w.st.1.model.get f).strip (CString key)) →
      NUL ∉ other.data → other ≠ key →
      specGetString p f other s = specGetString p f other w.st.1 := by
    intro s other hs ho hne
    have hc : CString other ≠ CString key := CString_ne_of_ne other key ho hk hne
    simp only [specGetString, specFind, hs, Tags.get_set _ _ _ hf,
      Entries.find_strip_of_ne _ _ _ hc]
  have hframe : ∀ (s : SpecImage) (g : MetadataFormat) (other : String),
      s.model = w.st.1.model.set f ((w.st.1.model.get f).strip (CString key)) → g ≠ f →
      specGetString p g other s = specGetString p g other w.st.1 := by
    intro s g other hs hg
    apply specGetString_congr
    rw [hs]
    exact Tags.get_set_of_ne _ _ _ _ hg
  refine ⟨?_, ?_, ?_, ?_, ?_, fun _ _ => rfl⟩
  · rw [readBack_eq_specGetString]
    exact hfail _ hmodel
  · rw [readBack_eq_specGetString]
    exact hfail _ (hread.trans hmodel)
  · rw [hmodel, Tags.get_set _ _ _ hf]
    rfl
  · intro other ho hne
    simp only [readBack_eq_specGetString]
    exact ⟨hother _ other hmodel ho hne, hother _ other (hread.trans hmodel) ho hne⟩
  · intro g other hg
    simp only [readBack_eq_specGetString]
    exact ⟨hframe _ g other hmodel hg, hframe _ g other (hread.trans hmodel) hg⟩

/-- Witness of the amended C13 on the demo codec: after `StripKey(XMP, "Xmp.iptc.JobId")`
the credit line is read as before. -/
theorem StripKey_removes_exactly_one_key_witness :
    (demoImage.StripKey XMP "Xmp.iptc.JobId" loadedWorld).1 = none ∧
    readBack demoParams demoImage XMP "Xmp.iptc.CreditLine"
        (demoImage.StripKey XMP "Xmp.iptc.JobId" loadedWorld).2
      = readBack demoParams demoImage XMP "Xmp.iptc.CreditLine" loadedWorld ∧
    readBack demoParams demoImage XMP "Xmp.iptc.CreditLine" loadedWorld
      = ("John Doe", none) :=
  ⟨rfl,
   ((StripKey_removes_exactly_one_key demoParams demoImage XMP "Xmp.iptc.JobId" loadedWorld
      (Or.inr (Or.inr rfl)) (by decide) rfl).2.2.2.1 "Xmp.iptc.CreditLine" (by decide)
      (by decide)).1,
   rfl⟩

/-- The foreign calls of `StripKey(XMP, key)` and when it returns nil. -/
theorem StripKey_XMP_calls (c : Codec) (i : Image c) (key : String) (w : World c) :
    (i.StripKey XMP key w).2.trace
      = w.trace ++ (match (c.xmp_strip_key i.img (CString key) w.st).1 with
          | none => [.CString key, .exiv2_xmp_strip_key (CString key),
              .free_string (CString key)]
          | some _ => failedXmpStripCalls key) ∧
    ((i.StripKey XMP key w).1 = none ↔
      (c.xmp_strip_key i.img (CString key) w.st).1 = none) := by
  have hXE : XMP ≠ EXIF := by decide
  have hXI : XMP ≠ IPTC := by decide
  cases h : (c.xmp_strip_key i.img (CString key) w.st).1 <;>
    simp [Image.StripKey, World.call, World.emit, h, makeError, hXE, hXI,
      failedXmpStripCalls]

/-- The call before a list of calls matters only when the list starts with a `next`. -/
theorem nextFollowsHasNext_of_head (p q : Option Call) (l : List Call)
    (h : l.head? ≠ some .exiv2_xmp_datum_iterator_next) :
    nextFollowsHasNext p l = nextFollowsHasNext q l := by
  cases l with
  | nil => rfl
  | cons ev rest =>
    have hev : ev ≠ .exiv2_xmp_datum_iterator_next := fun e => h (by rw [e]; rfl)
    simp [nextFollowsHasNext, hev]

/-- Appending calls among which every `next` follows a `has_next`, the second list not
starting with a `next`, gives such a list. -/
theorem nextFollowsHasNext_append (p : Option Call) (l1 l2 : List Call)
    (h1 : nextFollowsHasNext p l1 = true)
    (h2 : nextFollowsHasNext none l2 = true)
    (hh : l2.head? ≠ some .exiv2_xmp_datum_iterator_next) :
    nextFollowsHasNext p (l1 ++ l2) = true := by
  induction l1 generalizing p with
  | nil =>
    rw [List.nil_append, nextFollowsHasNext_of_head p none l2 hh]
    exact h2
  | cons ev rest ih =>
    simp only [nextFollowsHasNext, Bool.and_eq_true, List.cons_append] at h1 ⊢
    exact ⟨h1.1, ih (some ev) h1.2⟩

/-- The foreign calls of the loop of `XmpStripMetadata`: they start with a `has_next` if
there are any, every `next` among them comes directly after a `has_next`, and the calls
of a run that returns an error end with those of the `StripKey` that failed. -/
theorem xmpStripLoop_calls {c : Codec} (i : Image c) (iter : XmpDatumIterator c)
    (unlessKeys : List String) :
    ∀ (fuel : Nat) (w : World c), ∃ l : List Call,
      (xmpStripLoop i iter unlessKeys fuel w).2.trace = w.trace ++ l ∧
      l.head? ≠ some .exiv2_xmp_datum_iterator_next ∧
      nextFollowsHasNext none l = true ∧
      (∀ err, (xmpStripLoop i iter unlessKeys fuel w).1 = .returned (some err) →
        ∃ pre key, l = pre ++ failedXmpStripCalls key) := by
  intro fuel
  induction fuel with
  | zero =>
    intro w
    exact ⟨[], by simp [xmpStripLoop], by simp, rfl, fun err h => by simp [xmpStripLoop] at h⟩
  | succ n ih =>
    intro w
    rw [xmpStripLoop_succ]
    have tH : (iter.HasNext w).2.trace
        = w.trace ++ [.exiv2_xmp_data_iterator_has_next] := rfl
    have tN : (iter.Next (iter.HasNext w).2).2.trace
        = w.trace ++ [.exiv2_xmp_data_iterator_has_next, .exiv2_xmp_datum_iterator_next] := by
      show (iter.HasNext w).2.trace ++ [Call.exiv2_xmp_datum_iterator_next] = _
      rw [tH]; simp
    by_cases hH : (iter.HasNext w).1 = true
    · simp only [hH, if_true]
      cases hN : (iter.Next (iter.HasNext w).2).1 with
      | none =>
        refine ⟨[.exiv2_xmp_data_iterator_has_next, .exiv2_xmp_datum_iterator_next],
          tN, by simp, by decide, fun err h => by simp at h⟩
      | some d =>
        have tK : (d.Key (iter.Next (iter.HasNext w).2).2).2.trace
            = w.trace ++ [.exiv2_xmp_data_iterator_has_next, .exiv2_xmp_datum_iterator_next,
                .exiv2_xmp_datum_key] := by
          show (iter.Next (iter.HasNext w).2).2.trace ++ [Call.exiv2_xmp_datum_key] = _
          rw [tN]; simp
        simp only
        by_cases hc : contains (d.Key (iter.Next (iter.HasNext w).2).2).1 unlessKeys = true
        · simp only [hc, if_true]
          obtain ⟨l2, ht, hh, hn, he⟩ := ih (d.Key (iter.Next (iter.HasNext w).2).2).2
          refine ⟨[.exiv2_xmp_data_iterator_has_next, .exiv2_xmp_datum_iterator_next,
              .exiv2_xmp_datum_key] ++ l2, ?_, by simp, ?_, ?_⟩
          · rw [ht, tK, List.append_assoc]
          · exact nextFollowsHasNext_append none _ l2 (by decide) hn hh
          · intro err h
            obtain ⟨pre, key, hl⟩ := he err h
            exact ⟨[.exiv2_xmp_data_iterator_has_next, .exiv2_xmp_datum_iterator_next,
              .exiv2_xmp_datum_key] ++ pre, key, by rw [hl, List.append_assoc]⟩
        · simp only [hc, Bool.false_eq_true, if_false]
          obtain ⟨hst, hiff⟩ := StripKey_XMP_calls c i
            (d.Key (iter.Next (iter.HasNext w).2).2).1
            (d.Key (iter.Next (iter.HasNext w).2).2).2
          cases hs : (i.StripKey XMP (d.Key (iter.Next (iter.HasNext w).2).2).1
              (d.Key (iter.Next (iter.HasNext w).2).2).2).1 with
          | some err2 =>
            cases hcod : (c.xmp_strip_key i.img
                (CString (d.Key (iter.Next (iter.HasNext w).2).2).1)
                (d.Key (iter.Next (iter.HasNext w).2).2).2.st).1 with
            | none =>
              rw [hiff.mpr hcod] at hs
              exact absurd hs (by simp)
            | some cerr =>
              rw [hcod] at hst
              refine ⟨[.exiv2_xmp_data_iterator_has_next, .exiv2_xmp_datum_iterator_next,
                  .exiv2_xmp_datum_key]
                  ++ failedXmpStripCalls (d.Key (iter.Next (iter.HasNext w).2).2).1,
                ?_, by simp, ?_, ?_⟩
              · simp only
                rw [hst, tK, List.append_assoc]
              · exact nextFollowsHasNext_append none _ _ (by decide)
                  (by simp [failedXmpStripCalls, nextFollowsHasNext]) (by
                    simp [failedXmpStripCalls])
              · intro err _
                exact ⟨_, _, rfl⟩
          | none =>
            have hcod := hiff.mp hs
            rw [hcod] at hst
            simp only
            obtain ⟨l2, ht, hh, hn, he⟩ := ih (i.StripKey XMP
              (d.Key (iter.Next (iter.HasNext w).2).2).1
              (d.Key (iter.Next (iter.HasNext w).2).2).2).2
            refine ⟨([.exiv2_xmp_data_iterator_has_next, .exiv2_xmp_datum_iterator_next,
                .exiv2_xmp_datum_key] ++
                [.CString (d.Key (iter.Next (iter.HasNext w).2).2).1,
                 .exiv2_xmp_strip_key (CString (d.Key (iter.Next (iter.HasNext w).2).2).1),
                 .free_string (CString (d.Key (iter.Next (iter.HasNext w).2).2).1)]) ++ l2,
              ?_, by simp, ?_, ?_⟩
            · rw [ht, hst, tK]
              simp only [List.append_assoc]
            · exact nextFollowsHasNext_append none _ l2
                (by simp [nextFollowsHasNext]) hn hh
            · intro err h
              obtain ⟨pre, key, hl⟩ := he err h
              exact ⟨([.exiv2_xmp_data_iterator_has_next, .exiv2_xmp_datum_iterator_next,
                .exiv2_xmp_datum_key] ++
                [.CString (d.Key (iter.Next (iter.HasNext w).2).2).1,
                 .exiv2_xmp_strip_key (CString (d.Key (iter.Next (iter.HasNext w).2).2).1),
                 .free_string (CString (d.Key (iter.Next (iter.HasNext w).2).2).1)]) ++ pre,
                key, by rw [hl]; simp only [List.append_assoc]⟩
    · have hF : (iter.HasNext w).1 = false := by simpa using hH
      simp only [hF, Bool.false_eq_true, if_false]
      exact ⟨[.exiv2_xmp_data_iterator_has_next], tH, by simp, by decide,
        fun err h => by simp at h⟩

/-- With a codec whose iterator yields a datum whenever it has just answered that there is
a next one, the loop of `XmpStripMetadata` does not dereference a nil datum. -/
theorem xmpStripLoop_no_panic {c : Codec} (hy : YieldsWhenHasNext c) (i : Image c)
    (iter : XmpDatumIterator c) (unlessKeys : List String) :
    ∀ (fuel : Nat) (w : World c), (xmpStripLoop i iter unlessKeys fuel w).1 ≠ .panicked := by
  intro fuel
  induction fuel with
  | zero => intro w; simp [xmpStripLoop]
  | succ n ih =>
    intro w
    rw [xmpStripLoop_succ]
    by_cases hH : (iter.HasNext w).1 = true
    · simp only [hH, if_true]
      have hne : (c.xmp_data_iterator_has_next iter.iter w.st).1 ≠ 0 := by
        have : decide ((c.xmp_data_iterator_has_next iter.iter w.st).1 ≠ 0) = true := hH
        simpa using this
      have hnext := hy iter.iter w.st hne
      cases hN : (iter.Next (iter.HasNext w).2).1 with
      | none =>
        exfalso
        have hN2 : makeXmpDatum iter.data (c.xmp_datum_iterator_next iter.iter
            (c.xmp_data_iterator_has_next iter.iter w.st).2).1 = none := hN
        cases hcod : (c.xmp_datum_iterator_next iter.iter
            (c.xmp_data_iterator_has_next iter.iter w.st).2).1 with
        | none => exact hnext hcod
        | some x => simp [makeXmpDatum, hcod] at hN2
      | some d =>
        simp only
        split
        · exact ih _
        · split
          · simp
          · exact ih _
    · have hF : (iter.HasNext w).1 = false := by simpa using hH
      simp [hF]

/-- The iterator of the demo codec yields a datum whenever it has just answered that
there is a next one. -/
theorem demoCodec_yields : YieldsWhenHasNext demoCodec := by
  intro it st h
  have h1 : (if (List.getD st.2 it []).isEmpty then (0 : Int) else 1) ≠ 0 := h
  show (List.getD st.2 it []).head? ≠ none
  cases hl : List.getD st.2 it [] with
  | nil =>
    rw [hl] at h1
    simp at h1
  | cons e rest => simp

/-- C17: `XmpStripMetadata` calls `Next` only directly after `HasNext` (among its foreign
calls every `exiv2_xmp_datum_iterator_next` comes directly after an
`exiv2_xmp_data_iterator_has_next`), and only when `HasNext` returned true. `Next` returns
nil exactly when the codec yields no datum. So with a codec whose iterator yields a datum
whenever it has just answered that there is a next one, `XmpStripMetadata` never
dereferences a nil datum, whatever the loop budget. When it returns an error, its foreign
calls end with those of the `StripKey` that failed: no later key is visited. -/
theorem XmpStripMetadata_never_dereferences_nil (c : Codec) (i : Image c)
    (unlessKeys : List String) (fuel : Nat) (w : World c) :
    (YieldsWhenHasNext c → (i.XmpStripMetadata unlessKeys fuel w).1 ≠ .panicked) ∧
    nextFollowsHasNext none (callsSince w (i.XmpStripMetadata unlessKeys fuel w).2) = true ∧
    (∀ (it : XmpDatumIterator c) (v : World c),
      (it.Next v).1 = none ↔ (c.xmp_datum_iterator_next it.iter v.st).1 = none) ∧
    (∀ (it : XmpDatumIterator c) (n : Nat) (v : World c), (it.HasNext v).1 = false →
      xmpStripLoop i it unlessKeys (n + 1) v = (.returned none, (it.HasNext v).2)) ∧
    (∀ err, (i.XmpStripMetadata unlessKeys fuel w).1 = .returned (some err) →
      ∃ pre key, callsSince w (i.XmpStripMetadata unlessKeys fuel w).2
        = pre ++ failedXmpStripCalls key) := by
  have hstart : ((i.GetXmpData w).1.Iterator (i.GetXmpData w).2).2.trace
      = w.trace ++ [.exiv2_image_get_xmp_data, .exiv2_xmp_data_iterator] := by
    show (w.trace ++ [Call.exiv2_image_get_xmp_data]) ++ [Call.exiv2_xmp_data_iterator] = _
    simp
  obtain ⟨l, ht, hh, hn, he⟩ := xmpStripLoop_calls i
    ((i.GetXmpData w).1.Iterator (i.GetXmpData w).2).1 unlessKeys fuel
    ((i.GetXmpData w).1.Iterator (i.GetXmpData w).2).2
  have hcalls : callsSince w (i.XmpStripMetadata unlessKeys fuel w).2
      = [.exiv2_image_get_xmp_data, .exiv2_xmp_data_iterator] ++ l := by
    unfold callsSince
    show List.drop w.trace.length (xmpStripLoop i _ unlessKeys fuel _).2.trace = _
    rw [ht, hstart, List.append_assoc, List.drop_left]
  refine ⟨?_, ?_, ?_, ?_, ?_⟩
  · intro hy
    exact xmpStripLoop_no_panic hy i _ unlessKeys fuel _
  · rw [hcalls]
    exact nextFollowsHasNext_append none _ l (by decide) hn hh
  · intro it v
    show makeXmpDatum it.data (c.xmp_datum_iterator_next it.iter v.st).1 = none ↔ _
    cases (c.xmp_datum_iterator_next it.iter v.st).1 <;> simp [makeXmpDatum]
  · intro it n v hF
    rw [xmpStripLoop_succ]
    simp [hF]
  · intro err h
    obtain ⟨pre, key, hl⟩ := he err h
    exact ⟨[.exiv2_image_get_xmp_data, .exiv2_xmp_data_iterator] ++ pre, key, by
      rw [hcalls, hl, List.append_assoc]⟩

/-- Witness of C17 on the demo codec with two XMP entries and none excepted:
`XmpStripMetadata` does not dereference a nil datum, and it returns nil. -/
theorem XmpStripMetadata_never_dereferences_nil_witness :
    (demoImage.XmpStripMetadata [] 10 loadedWorld).1 ≠ .panicked ∧
    (demoImage.XmpStripMetadata [] 10 loadedWorld).1 = .returned none :=
  ⟨(XmpStripMetadata_never_dereferences_nil demoCodec demoImage [] 10 loadedWorld).1
     demoCodec_yields, rfl⟩

end Goexiv
